import Mathlib

/-!
# Verification of the `ecs-autoscaler` reconciliation engine

Shallow embedding of `main.go` of the `cheelim1/ecs-autoscaler` repository.

Modelling conventions:
* Go `*T` pointer fields are `Option T`; a Go nil-pointer dereference is a
  distinguished outcome (`none` for the comparator helpers, `Outcome.crashed`
  for the driver).  Pointer fields that the code dereferences unconditionally
  and that the control plane always populates (live policy ARN, live target
  capacities) are modelled as plain values.
* Go `float64` values in this program are only ever compared for equality or
  copied, so they are modelled as `Int`.
* Go `int` → `int32` conversions wrap; `toInt32` models the wrap-around.
* The two external AWS APIs are modelled as a `World` state (the spec's §6
  capability interfaces: `put` is an upsert visible to later describes,
  `delete` removes) together with a `Faults` oracle that injects call
  failures, and the driver records every write call it issues in a trace.
* `json.Unmarshal` of the two policy blobs is modelled at the blob level
  (`PolicyBlob`): the empty string, a malformed payload, or a parsed list.
-/

/-- Desired-state step adjustment, `main.go` `StepAdj` (JSON input form). -/
structure StepAdj where
  MetricIntervalLowerBound : Option Int
  MetricIntervalUpperBound : Option Int
  ScalingAdjustment : Int
deriving DecidableEq, Repr

/-- Desired-state custom metric, `main.go` `CustomMetricSpec`.
`Dimensions` models the JSON `map[string]string` as an association list. -/
structure CustomMetricSpec where
  Namespace : String
  MetricName : String
  Dimensions : List (String × String)
  Statistic : String
deriving DecidableEq, Repr

/-- Desired-state target-tracking payload, `main.go` `TargetTrackingConfig`. -/
structure TargetTrackingConfig where
  TargetValue : Int
  PredefinedMetricSpecification : String
  CustomMetricSpecification : Option CustomMetricSpec
  ScaleInCooldown : Option Int
  ScaleOutCooldown : Option Int
deriving DecidableEq, Repr

/-- Desired-state policy, `main.go` `PolicyDef`. -/
structure PolicyDef where
  PolicyName : String
  PolicyType : String
  MetricName : String
  MetricNamespace : String
  AdjustmentType : String
  Cooldown : Option Int
  MetricAggregationType : String
  StepAdjustments : List StepAdj
  TargetTrackingConfiguration : Option TargetTrackingConfig
  ScaleDirection : String
deriving DecidableEq, Repr

/-- SDK `aasTypes.StepAdjustment`: every field is a pointer. -/
structure AwsStepAdjustment where
  MetricIntervalLowerBound : Option Int
  MetricIntervalUpperBound : Option Int
  ScalingAdjustment : Option Int
deriving DecidableEq, Repr

/-- SDK `aasTypes.StepScalingPolicyConfiguration`.  `AdjustmentType` and
`MetricAggregationType` are string enums in the SDK. -/
structure StepScalingPolicyConfiguration where
  AdjustmentType : String
  Cooldown : Option Int
  MetricAggregationType : String
  StepAdjustments : List AwsStepAdjustment
deriving DecidableEq, Repr

/-- SDK `aasTypes.MetricDimension` (pointer name and value). -/
structure MetricDimension where
  Name : Option String
  Value : Option String
deriving DecidableEq, Repr

/-- SDK `aasTypes.PredefinedMetricSpecification`. -/
structure PredefinedMetricSpecification where
  PredefinedMetricType : String
deriving DecidableEq, Repr

/-- SDK `aasTypes.CustomizedMetricSpecification`. -/
structure CustomizedMetricSpecification where
  MetricName : Option String
  Namespace : Option String
  Dimensions : List MetricDimension
  Statistic : String
deriving DecidableEq, Repr

/-- SDK `aasTypes.TargetTrackingScalingPolicyConfiguration`. -/
structure TargetTrackingScalingPolicyConfiguration where
  TargetValue : Option Int
  PredefinedMetricSpecification : Option PredefinedMetricSpecification
  CustomizedMetricSpecification : Option CustomizedMetricSpecification
  ScaleInCooldown : Option Int
  ScaleOutCooldown : Option Int
deriving DecidableEq, Repr

/-- SDK `aas.PutScalingPolicyInput`, restricted to the fields the program
sets and compares (the namespace / dimension / resource-id fields are the
same constants on every call). -/
structure PutScalingPolicyInput where
  ResourceId : String
  PolicyName : String
  PolicyType : String
  StepScalingPolicyConfiguration : Option StepScalingPolicyConfiguration
  TargetTrackingScalingPolicyConfiguration : Option TargetTrackingScalingPolicyConfiguration
deriving DecidableEq, Repr

/-- A live scaling policy as returned by `DescribeScalingPolicies`.
`PolicyARN` is always populated by the control plane (the program
dereferences it unconditionally). -/
structure LivePolicy where
  PolicyName : String
  PolicyType : String
  PolicyARN : String
  StepScalingPolicyConfiguration : Option StepScalingPolicyConfiguration
  TargetTrackingScalingPolicyConfiguration : Option TargetTrackingScalingPolicyConfiguration
deriving DecidableEq, Repr

/-- SDK `cw.PutMetricAlarmInput`, the fields the program sets. -/
structure PutMetricAlarmInput where
  AlarmName : String
  AlarmDescription : String
  Namespace : String
  MetricName : String
  Statistic : String
  Period : Int
  EvaluationPeriods : Int
  Threshold : Int
  ComparisonOperator : String
  Dimensions : List (String × String)
  AlarmActions : List String
deriving DecidableEq, Repr

/-! ## State comparators (`main.go` lines 162–309) -/

/-- `(x == nil) != (y == nil)` on two optional values. -/
def optPresenceDiffers (x y : Option Int) : Bool :=
  x.isNone != y.isNone

/-- `x != nil && y != nil && *x != *y` on two optional values. -/
def optValuesDiffer (x y : Option Int) : Bool :=
  match x, y with
  | some a, some b => a != b
  | _, _ => false

/-- Positional comparison of two step-adjustment lists, the loop of
`compareScalingPolicy` lines 213–235.  The source only runs this loop after
establishing equal lengths.  `none` models the nil-pointer panic of
dereferencing a `ScalingAdjustment` that is absent. -/
def compareStepAdjLists : List AwsStepAdjustment → List AwsStepAdjustment → Option Bool
  | [], [] => some true
  | e :: es, d :: ds =>
    if optPresenceDiffers e.MetricIntervalLowerBound d.MetricIntervalLowerBound ||
       optPresenceDiffers e.MetricIntervalUpperBound d.MetricIntervalUpperBound then some false
    else if optValuesDiffer e.MetricIntervalLowerBound d.MetricIntervalLowerBound then some false
    else if optValuesDiffer e.MetricIntervalUpperBound d.MetricIntervalUpperBound then some false
    else do
      let a ← e.ScalingAdjustment
      let b ← d.ScalingAdjustment
      if a != b then some false else compareStepAdjLists es ds
  | _, _ => some false

/-- StepScaling branch of `compareScalingPolicy`, lines 187–235. -/
def compareStepConfigs (es ds : StepScalingPolicyConfiguration) : Option Bool :=
  if es.AdjustmentType != ds.AdjustmentType ||
     es.MetricAggregationType != ds.MetricAggregationType then some false
  else if optPresenceDiffers es.Cooldown ds.Cooldown then some false
  else if optValuesDiffer es.Cooldown ds.Cooldown then some false
  else if es.StepAdjustments.length != ds.StepAdjustments.length then some false
  else compareStepAdjLists es.StepAdjustments ds.StepAdjustments

/-- Build the `existingDims` Go map (lines 295–298).  Entries are prepended,
so `List.lookup` returns the value of the *last* write for a key, exactly the
Go map semantics; `none` models the panic on a nil dimension name/value. -/
def buildDimMapGo (acc : List (String × String)) :
    List MetricDimension → Option (List (String × String))
  | [] => some acc
  | d :: rest => do
    let n ← d.Name
    let v ← d.Value
    buildDimMapGo ((n, v) :: acc) rest

/-- The `existingDims` map of `compareScalingPolicy`. -/
def buildDimMap (dims : List MetricDimension) : Option (List (String × String)) :=
  buildDimMapGo [] dims

/-- Go map read `m[k]`: missing keys yield the zero value `""`. -/
def goMapLookup (m : List (String × String)) (k : String) : String :=
  (m.lookup k).getD ""

/-- The desired-dimension loop of `compareScalingPolicy`, lines 300–304. -/
def checkDesiredDims (m : List (String × String)) : List MetricDimension → Option Bool
  | [] => some true
  | d :: rest => do
    let n ← d.Name
    let v ← d.Value
    if goMapLookup m n != v then some false else checkDesiredDims m rest

/-- Dimension comparison of `compareScalingPolicy`, lines 290–304:
a length equality gate, then a desired-into-live map check. -/
def compareDimensions (existing desired : List MetricDimension) : Option Bool :=
  if existing.length != desired.length then some false
  else do
    let m ← buildDimMap existing
    checkDesiredDims m desired

/-- Lines 270–274: both predefined specs present with different types. -/
def predefinedTypesDiffer (x y : Option PredefinedMetricSpecification) : Bool :=
  match x, y with
  | some a, some b => a.PredefinedMetricType != b.PredefinedMetricType
  | _, _ => false

/-- Customized-metric comparison of `compareScalingPolicy`, lines 280–305. -/
def compareCustomized (ec dc : CustomizedMetricSpecification) : Option Bool :=
  match ec.MetricName, dc.MetricName, ec.Namespace, dc.Namespace with
  | some em, some dm, some en, some dn =>
    if em != dm || en != dn || ec.Statistic != dc.Statistic then some false
    else compareDimensions ec.Dimensions dc.Dimensions
  | _, _, _, _ => none

/-- TargetTrackingScaling branch of `compareScalingPolicy`, lines 237–306. -/
def compareTTConfigs (et dt : TargetTrackingScalingPolicyConfiguration) : Option Bool :=
  match et.TargetValue, dt.TargetValue with
  | some a, some b =>
    if a != b then some false
    else if optPresenceDiffers et.ScaleInCooldown dt.ScaleInCooldown ||
            optPresenceDiffers et.ScaleOutCooldown dt.ScaleOutCooldown then some false
    else if optValuesDiffer et.ScaleInCooldown dt.ScaleInCooldown then some false
    else if optValuesDiffer et.ScaleOutCooldown dt.ScaleOutCooldown then some false
    else if et.PredefinedMetricSpecification.isNone !=
            dt.PredefinedMetricSpecification.isNone then some false
    else if predefinedTypesDiffer et.PredefinedMetricSpecification
            dt.PredefinedMetricSpecification then some false
    else if et.CustomizedMetricSpecification.isNone !=
            dt.CustomizedMetricSpecification.isNone then some false
    else
      match et.CustomizedMetricSpecification, dt.CustomizedMetricSpecification with
      | some ec, some dc => compareCustomized ec dc
      | _, _ => some true
  | _, _ => none

/-- `compareScalingPolicy` (lines 162–309) on the result of the describe
call: `none` argument means the policy list came back empty.  The describe
error itself is handled at the call sites in the driver.  Result `none`
models a nil-pointer panic inside the comparison. -/
def compareScalingPolicy (resp : Option LivePolicy) (desired : PutScalingPolicyInput) :
    Option Bool :=
  match resp with
  | none => some false
  | some existing =>
    if existing.PolicyType != desired.PolicyType then some false
    else if desired.PolicyType == "StepScaling" then
      match existing.StepScalingPolicyConfiguration,
            desired.StepScalingPolicyConfiguration with
      | some es, some ds => compareStepConfigs es ds
      | _, _ => some false
    else if desired.PolicyType == "TargetTrackingScaling" then
      match existing.TargetTrackingScalingPolicyConfiguration,
            desired.TargetTrackingScalingPolicyConfiguration with
      | some et, some dt => compareTTConfigs et dt
      | _, _ => some false
    else some true

/-- `deduplicate` (lines 312–322): first-seen-order deduplication. -/
def dedupGo (seen : List String) : List String → List String
  | [] => []
  | x :: xs => if x ∈ seen then dedupGo seen xs else x :: dedupGo (x :: seen) xs

/-- `deduplicate` entry point. -/
def deduplicate (slice : List String) : List String :=
  dedupGo [] slice

/-! ## Driver model (`main.go` `main`, lines 324–900) -/

/-- A numeric command-line argument at the abstraction level of
`getIntWithDefault` / `getFloatWithDefault`: the empty string, a string that
fails to parse, or a string parsing to a value. -/
inductive NumArg where
  | absent
  | bad
  | val (n : Int)
deriving DecidableEq, Repr

/-- `getIntWithDefault` (lines 78–88): empty means default, a parse failure
is an error (`none`). -/
def getIntWithDefault (arg : NumArg) (defaultValue : Int) : Option Int :=
  match arg with
  | .absent => some defaultValue
  | .bad => none
  | .val n => some n

/-- `getFloatWithDefault` (lines 90–100); float values are modelled as
integers. -/
def getFloatWithDefault (arg : NumArg) (defaultValue : Int) : Option Int :=
  match arg with
  | .absent => some defaultValue
  | .bad => none
  | .val n => some n

/-- A policy JSON blob argument: the empty string, a non-empty string that
`json.Unmarshal` rejects, or one that parses to a policy list. -/
inductive PolicyBlob where
  | empty
  | malformed
  | parsed (ps : List PolicyDef)
deriving DecidableEq, Repr

/-- The positional arguments of one invocation (after credentials/region,
which only affect client construction). -/
structure RawArgs where
  cluster : String
  service : String
  enabled : Bool
  minCapArg : NumArg
  maxCapArg : NumArg
  outCdArg : NumArg
  inCdArg : NumArg
  cpuOutArg : NumArg
  cpuInArg : NumArg
  memOutArg : NumArg
  memInArg : NumArg
deriving DecidableEq, Repr

/-- Validated arguments (after lines 338–376).  Capacities and cooldowns
have been converted to `int32`. -/
structure Args where
  cluster : String
  service : String
  enabled : Bool
  minCap : Int
  maxCap : Int
  outCd : Int
  inCd : Int
  targetCPUOut : Int
  targetCPUIn : Int
  targetMemOut : Int
  targetMemIn : Int
deriving DecidableEq, Repr

/-- Go `int32(n)` conversion (wrap-around). -/
def toInt32 (n : Int) : Int :=
  (n + 2 ^ 31) % 2 ^ 32 - 2 ^ 31

/-- Argument validation, lines 338–376 in source order; any failure makes
`main` exit before any AWS client is even constructed. -/
def parseArgs (raw : RawArgs) : Option Args := do
  let minCap ← getIntWithDefault raw.minCapArg 1
  let maxCap ← getIntWithDefault raw.maxCapArg 10
  let outCd ← getIntWithDefault raw.outCdArg 300
  let inCd ← getIntWithDefault raw.inCdArg 300
  let targetCPUOut ← getFloatWithDefault raw.cpuOutArg 75
  let targetCPUIn ← getFloatWithDefault raw.cpuInArg 65
  let targetMemOut ← getFloatWithDefault raw.memOutArg 80
  let targetMemIn ← getFloatWithDefault raw.memInArg 70
  some { cluster := raw.cluster, service := raw.service, enabled := raw.enabled,
         minCap := toInt32 minCap, maxCap := toInt32 maxCap,
         outCd := toInt32 outCd, inCd := toInt32 inCd,
         targetCPUOut := targetCPUOut, targetCPUIn := targetCPUIn,
         targetMemOut := targetMemOut, targetMemIn := targetMemIn }

/-- `resourceID := fmt.Sprintf("service/%s/%s", cluster, service)`. -/
def Args.resourceID (a : Args) : String :=
  "service/" ++ a.cluster ++ "/" ++ a.service

/-- Live control-plane state for the single resource id of a run: the
scalable target (min, max) if registered, the scaling policies by name, and
the names of the existing alarms.  Modelled from the spec: §6 describes the
two capability interfaces; `put` is an upsert visible to later describes and
`delete` removes. -/
structure World where
  target : Option (Int × Int)
  policies : List (String × LivePolicy)
  alarms : List String
deriving DecidableEq, Repr

/-- Failure injection for each remote call, keyed by the queried name where
the driver makes per-name calls. -/
structure Faults where
  describeTarget : Bool
  describePolicies : String → Bool
  describeAlarm : String → Bool
  registerTarget : Bool
  putPolicy : String → Bool
  putAlarm : String → Bool
  deleteAlarms : Bool
  deletePolicy : String → Bool
  deregisterTarget : Bool

/-- The fault-free environment. -/
def noFaults : Faults :=
  { describeTarget := false, describePolicies := fun _ => false,
    describeAlarm := fun _ => false, registerTarget := false,
    putPolicy := fun _ => false, putAlarm := fun _ => false,
    deleteAlarms := false, deletePolicy := fun _ => false,
    deregisterTarget := false }

/-- A write call issued against one of the two control planes. -/
inductive Call where
  | registerTarget (resourceID : String) (minCap maxCap : Int)
  | putPolicy (input : PutScalingPolicyInput)
  | putAlarm (input : PutMetricAlarmInput)
  | deleteAlarms (names : List String)
  | deletePolicy (resourceID name : String)
  | deregisterTarget (resourceID : String)
deriving DecidableEq, Repr

/-- How a run ends: normal termination, `os.Exit(1)`, or a nil-pointer
panic. -/
inductive Outcome where
  | success
  | fatal
  | crashed
deriving DecidableEq, Repr

/-- Policy lookup in the live state (the describe-by-name result). -/
def lookupPolicy (w : World) (name : String) : Option LivePolicy :=
  w.policies.lookup name

/-- The live policy stored by a `PutScalingPolicy` upsert. -/
def livePolicyOf (input : PutScalingPolicyInput) (arn : String) : LivePolicy :=
  { PolicyName := input.PolicyName, PolicyType := input.PolicyType,
    PolicyARN := arn,
    StepScalingPolicyConfiguration := input.StepScalingPolicyConfiguration,
    TargetTrackingScalingPolicyConfiguration :=
      input.TargetTrackingScalingPolicyConfiguration }

/-- Effect of a `PutScalingPolicy` upsert on the live state: a new policy
gets a fresh ARN, an updated one keeps its ARN. -/
def putPolicyWorld (w : World) (input : PutScalingPolicyInput) : World :=
  let arn := match lookupPolicy w input.PolicyName with
    | some lp => lp.PolicyARN
    | none => "arn:" ++ input.PolicyName
  { w with policies :=
      (input.PolicyName, livePolicyOf input arn) ::
        w.policies.filter (fun q => q.1 != input.PolicyName) }

/-- `checkScalableTarget` (lines 102–119): exists with exactly the desired
capacities.  `none` is the describe error. -/
def checkScalableTarget (f : Faults) (w : World) (minCap maxCap : Int) : Option Bool :=
  if f.describeTarget then none
  else some (match w.target with
    | none => false
    | some (mn, mx) => mn == minCap && mx == maxCap)

/-- `scalableTargetExists` (lines 121–133). -/
def scalableTargetExists (f : Faults) (w : World) : Option Bool :=
  if f.describeTarget then none else some w.target.isSome

/-- `checkScalingPolicy` (lines 135–148): existence by name. -/
def checkScalingPolicy (f : Faults) (w : World) (name : String) : Option Bool :=
  if f.describePolicies name then none else some (lookupPolicy w name).isSome

/-- `checkCloudWatchAlarm` (lines 150–160). -/
def checkCloudWatchAlarm (f : Faults) (w : World) (name : String) : Option Bool :=
  if f.describeAlarm name then none else some (w.alarms.contains name)

/-- Outcome of building `policyInput` for one policy (lines 575–637):
the happy path, the `default:` branch (unknown `policy_type`, `os.Exit(1)`),
or the nil dereference of `p.TargetTrackingConfiguration`. -/
inductive BuildResult where
  | ok (input : PutScalingPolicyInput)
  | unknownType
  | crashB
deriving DecidableEq, Repr

/-- Build the `PutScalingPolicyInput` for one desired policy, the `switch`
of lines 577–637. -/
def buildPolicyInput (rid : String) (p : PolicyDef) : BuildResult :=
  if p.PolicyType == "StepScaling" then
    let sa := p.StepAdjustments.map fun adj =>
      { MetricIntervalLowerBound := adj.MetricIntervalLowerBound,
        MetricIntervalUpperBound := adj.MetricIntervalUpperBound,
        ScalingAdjustment := some adj.ScalingAdjustment : AwsStepAdjustment }
    .ok { ResourceId := rid, PolicyName := p.PolicyName, PolicyType := "StepScaling",
          StepScalingPolicyConfiguration := some
            { AdjustmentType := p.AdjustmentType, Cooldown := p.Cooldown,
              MetricAggregationType := p.MetricAggregationType,
              StepAdjustments := sa },
          TargetTrackingScalingPolicyConfiguration := none }
  else if p.PolicyType == "TargetTrackingScaling" then
    match p.TargetTrackingConfiguration with
    | none => .crashB
    | some tt =>
      let cfgTT : TargetTrackingScalingPolicyConfiguration :=
        { TargetValue := some tt.TargetValue,
          PredefinedMetricSpecification :=
            if tt.PredefinedMetricSpecification != "" then
              some { PredefinedMetricType := tt.PredefinedMetricSpecification }
            else none,
          CustomizedMetricSpecification :=
            if tt.PredefinedMetricSpecification != "" then none
            else match tt.CustomMetricSpecification with
              | some cm => some
                  { MetricName := some cm.MetricName,
                    Namespace := some cm.Namespace,
                    Dimensions := cm.Dimensions.map fun kv =>
                      { Name := some kv.1, Value := some kv.2 },
                    Statistic := cm.Statistic }
              | none => none,
          ScaleInCooldown := tt.ScaleInCooldown,
          ScaleOutCooldown := tt.ScaleOutCooldown }
      .ok { ResourceId := rid, PolicyName := p.PolicyName,
            PolicyType := "TargetTrackingScaling",
            StepScalingPolicyConfiguration := none,
            TargetTrackingScalingPolicyConfiguration := some cfgTT }
  else .unknownType

/-- Selection of the effective policy list from the two blobs, the shared
shape of lines 555–569 (enable) and 441–455 (disable): a non-empty custom
blob wins, else a non-empty default blob, else no policies. -/
def effectivePolicies (custom dflt : PolicyBlob) : Option (List PolicyDef) :=
  match custom with
  | .parsed ps => some ps
  | .malformed => none
  | .empty =>
    match dflt with
    | .parsed ps => some ps
    | .malformed => none
    | .empty => some []

/-- Scalable-target reconciliation of the enable path (lines 404–425).
First component: `some o` aborts the run with outcome `o`, `none`
continues. -/
def targetStep (a : Args) (f : Faults) (w : World) :
    Option Outcome × List Call × World :=
  match checkScalableTarget f w a.minCap a.maxCap with
  | none => (some .fatal, [], w)
  | some ex =>
    if ex then (none, [], w)
    else
      let c := Call.registerTarget a.resourceID a.minCap a.maxCap
      if f.registerTarget then (some .fatal, [c], w)
      else (none, [c], { w with target := some (a.minCap, a.maxCap) })

/-- Processing of one custom policy: the loop body of lines 572–741. -/
def processPolicy (a : Args) (f : Faults) (p : PolicyDef) (w : World) :
    Option Outcome × List Call × World :=
  match buildPolicyInput a.resourceID p with
  | .unknownType => (some .fatal, [], w)
  | .crashB => (some .crashed, [], w)
  | .ok input =>
    if f.describePolicies p.PolicyName then (some .fatal, [], w)
    else
      match compareScalingPolicy (lookupPolicy w p.PolicyName) input with
      | none => (some .crashed, [], w)
      | some policyMatches =>
        let afterPut : Option Outcome × Bool × List Call × World :=
          if policyMatches then (none, true, [], w)
          else if f.describePolicies p.PolicyName then (some .fatal, true, [], w)
          else
            let pex := (lookupPolicy w p.PolicyName).isSome
            let c := Call.putPolicy input
            if f.putPolicy p.PolicyName then (some .fatal, pex, [c], w)
            else (none, pex, [c], putPolicyWorld w input)
        match afterPut with
        | (some o, _, calls, w') => (some o, calls, w')
        | (none, policyExists, calls, w') =>
          if p.PolicyType == "StepScaling" && p.MetricName != "" &&
             p.MetricNamespace != "" && !policyExists then
            if f.describePolicies p.PolicyName then (some .fatal, calls, w')
            else
              match lookupPolicy w' p.PolicyName with
              | none => (some .fatal, calls, w')
              | some lp =>
                let alarmName := a.cluster ++ "-" ++ a.service ++ "-" ++ p.PolicyName
                let thCmp : Int × String :=
                  if p.ScaleDirection == "in" then
                    (a.targetCPUIn, "LessThanOrEqualToThreshold")
                  else if p.ScaleDirection == "out" then
                    (a.targetCPUOut, "GreaterThanOrEqualToThreshold")
                  else (a.targetCPUOut, "GreaterThanOrEqualToThreshold")
                match p.Cooldown with
                | none => (some .crashed, calls, w')
                | some cd =>
                  let alarmInput : PutMetricAlarmInput :=
                    { AlarmName := alarmName,
                      AlarmDescription := "Scale based on " ++ p.MetricName,
                      Namespace := p.MetricNamespace,
                      MetricName := p.MetricName,
                      Statistic := "Average",
                      Period := cd,
                      EvaluationPeriods := 2,
                      Threshold := thCmp.1,
                      ComparisonOperator := thCmp.2,
                      Dimensions := [("ClusterName", a.cluster), ("ServiceName", a.service)],
                      AlarmActions := [lp.PolicyARN] }
                  match checkCloudWatchAlarm f w' alarmName with
                  | none => (some .fatal, calls, w')
                  | some alarmExists =>
                    if alarmExists then (none, calls, w')
                    else
                      let calls' := calls ++ [Call.putAlarm alarmInput]
                      if f.putAlarm alarmName then (some .fatal, calls', w')
                      else (none, calls', { w' with alarms := alarmName :: w'.alarms })
          else (none, calls, w')

/-- The custom-policy loop of lines 572–741. -/
def processPolicies (a : Args) (f : Faults) :
    List PolicyDef → World → Option Outcome × List Call × World
  | [], w => (none, [], w)
  | p :: rest, w =>
    match processPolicy a f p w with
    | (some o, calls, w') => (some o, calls, w')
    | (none, calls, w') =>
      let r := processPolicies a f rest w'
      (r.1, calls ++ r.2.1, r.2.2)

/-- Names of the two built-in default policies (lines 499–503, 755–756). -/
def defaultOutName (a : Args) : String := a.cluster ++ "-" ++ a.service ++ "-scale-out"

/-- Name of the built-in scale-in policy. -/
def defaultInName (a : Args) : String := a.cluster ++ "-" ++ a.service ++ "-scale-in"

/-- The built-in CPU step-scaling policy input (lines 758–770). -/
def defaultPolicyInput (a : Args) (name : String) (adjust cd : Int) : PutScalingPolicyInput :=
  { ResourceId := a.resourceID, PolicyName := name, PolicyType := "StepScaling",
    StepScalingPolicyConfiguration := some
      { AdjustmentType := "ChangeInCapacity", Cooldown := some cd,
        MetricAggregationType := "Maximum",
        StepAdjustments := [{ MetricIntervalLowerBound := some 0,
                              MetricIntervalUpperBound := none,
                              ScalingAdjustment := some adjust }] },
    TargetTrackingScalingPolicyConfiguration := none }

/-- Reconciliation of one built-in policy (lines 772–787). -/
def reconcileDefaultPolicy (a : Args) (f : Faults) (name : String) (adjust cd : Int)
    (w : World) : Option Outcome × List Call × World :=
  let input := defaultPolicyInput a name adjust cd
  if f.describePolicies name then (some .fatal, [], w)
  else
    match compareScalingPolicy (lookupPolicy w name) input with
    | none => (some .crashed, [], w)
    | some policyMatches =>
      if policyMatches then (none, [], w)
      else
        let c := Call.putPolicy input
        if f.putPolicy name then (some .fatal, [c], w)
        else (none, [c], putPolicyWorld w input)

/-- The four built-in alarm inputs (lines 813–877), given the two policy
ARNs fetched at lines 791–810. -/
def defaultAlarmInputs (a : Args) (upArn downArn : String) : List PutMetricAlarmInput :=
  [ { AlarmName := a.cluster ++ "-" ++ a.service ++ "-cpu-high",
      AlarmDescription := "Scale out on high CPU", Namespace := "AWS/ECS",
      MetricName := "CPUUtilization", Statistic := "Average",
      Period := a.outCd, EvaluationPeriods := 2, Threshold := a.targetCPUOut,
      ComparisonOperator := "GreaterThanOrEqualToThreshold",
      Dimensions := [("ClusterName", a.cluster), ("ServiceName", a.service)],
      AlarmActions := [upArn] },
    { AlarmName := a.cluster ++ "-" ++ a.service ++ "-cpu-low",
      AlarmDescription := "Scale in on low CPU", Namespace := "AWS/ECS",
      MetricName := "CPUUtilization", Statistic := "Average",
      Period := a.inCd, EvaluationPeriods := 2, Threshold := a.targetCPUIn,
      ComparisonOperator := "LessThanOrEqualToThreshold",
      Dimensions := [("ClusterName", a.cluster), ("ServiceName", a.service)],
      AlarmActions := [downArn] },
    { AlarmName := a.cluster ++ "-" ++ a.service ++ "-mem-high",
      AlarmDescription := "Scale out on high memory", Namespace := "AWS/ECS",
      MetricName := "MemoryUtilization", Statistic := "Average",
      Period := a.outCd, EvaluationPeriods := 2, Threshold := a.targetMemOut,
      ComparisonOperator := "GreaterThanOrEqualToThreshold",
      Dimensions := [("ClusterName", a.cluster), ("ServiceName", a.service)],
      AlarmActions := [upArn] },
    { AlarmName := a.cluster ++ "-" ++ a.service ++ "-mem-low",
      AlarmDescription := "Scale in on low memory", Namespace := "AWS/ECS",
      MetricName := "MemoryUtilization", Statistic := "Average",
      Period := a.inCd, EvaluationPeriods := 2, Threshold := a.targetMemIn,
      ComparisonOperator := "LessThanOrEqualToThreshold",
      Dimensions := [("ClusterName", a.cluster), ("ServiceName", a.service)],
      AlarmActions := [downArn] } ]

/-- Create-once reconciliation of one alarm (lines 879–897). -/
def alarmStep (f : Faults) (inp : PutMetricAlarmInput) (w : World) :
    Option Outcome × List Call × World :=
  match checkCloudWatchAlarm f w inp.AlarmName with
  | none => (some .fatal, [], w)
  | some alarmExists =>
    if alarmExists then (none, [], w)
    else
      let c := Call.putAlarm inp
      if f.putAlarm inp.AlarmName then (some .fatal, [c], w)
      else (none, [c], { w with alarms := inp.AlarmName :: w.alarms })

/-- The alarm loop of lines 861–897. -/
def alarmsLoop (f : Faults) : List PutMetricAlarmInput → World →
    Option Outcome × List Call × World
  | [], w => (none, [], w)
  | inp :: rest, w =>
    match alarmStep f inp w with
    | (some o, calls, w') => (some o, calls, w')
    | (none, calls, w') =>
      let r := alarmsLoop f rest w'
      (r.1, calls ++ r.2.1, r.2.2)

/-- The built-in default path (lines 747–899): two CPU step policies, ARN
fetches, then the four create-once alarms. -/
def defaultPath (a : Args) (f : Faults) (w : World) : Outcome × List Call × World :=
  match reconcileDefaultPolicy a f (defaultOutName a) 1 a.outCd w with
  | (some o, c1, w1) => (o, c1, w1)
  | (none, c1, w1) =>
    match reconcileDefaultPolicy a f (defaultInName a) (-1) a.inCd w1 with
    | (some o, c2, w2) => (o, c1 ++ c2, w2)
    | (none, c2, w2) =>
      if f.describePolicies (defaultOutName a) then (.fatal, c1 ++ c2, w2)
      else
        match lookupPolicy w2 (defaultOutName a) with
        | none => (.fatal, c1 ++ c2, w2)
        | some upPol =>
          if f.describePolicies (defaultInName a) then (.fatal, c1 ++ c2, w2)
          else
            match lookupPolicy w2 (defaultInName a) with
            | none => (.fatal, c1 ++ c2, w2)
            | some downPol =>
              match alarmsLoop f (defaultAlarmInputs a upPol.PolicyARN downPol.PolicyARN) w2 with
              | (some o, c3, w3) => (o, c1 ++ c2 ++ c3, w3)
              | (none, c3, w3) => (.success, c1 ++ c2 ++ c3, w3)

/-- The enable path of `main` (lines 404–425 and 555–899). -/
def runEnable (a : Args) (custom dflt : PolicyBlob) (f : Faults) (w : World) :
    Outcome × List Call × World :=
  match targetStep a f w with
  | (some o, c0, w0) => (o, c0, w0)
  | (none, c0, w0) =>
    match effectivePolicies custom dflt with
    | none => (.fatal, c0, w0)
    | some ps =>
      match processPolicies a f ps w0 with
      | (some o, c1, w1) => (o, c0 ++ c1, w1)
      | (none, c1, w1) =>
        if ps.length > 0 then (.success, c0 ++ c1, w1)
        else
          let r := defaultPath a f w1
          (r.1, c0 ++ c1 ++ r.2.1, r.2.2)

/-- The four fixed default alarm names of the disable path (lines 458–464). -/
def defaultAlarmNames (a : Args) : List String :=
  [ a.cluster ++ "-" ++ a.service ++ "-cpu-high",
    a.cluster ++ "-" ++ a.service ++ "-cpu-low",
    a.cluster ++ "-" ++ a.service ++ "-mem-high",
    a.cluster ++ "-" ++ a.service ++ "-mem-low" ]

/-- Alarm probing of the disable path (lines 474–485): a probe failure skips
that name (`continue`), otherwise the name is kept iff the alarm exists. -/
def probeAlarms (f : Faults) (w : World) : List String → List String
  | [] => []
  | n :: rest =>
    match checkCloudWatchAlarm f w n with
    | none => probeAlarms f w rest
    | some ex => if ex then n :: probeAlarms f w rest else probeAlarms f w rest

/-- Policy probing of the disable path (lines 513–524): same skip-on-error
shape as alarm probing. -/
def probePolicies (f : Faults) (w : World) : List String → List String
  | [] => []
  | n :: rest =>
    match checkScalingPolicy f w n with
    | none => probePolicies f w rest
    | some ex => if ex then n :: probePolicies f w rest else probePolicies f w rest

/-- The per-policy deletion loop of the disable path (lines 527–538): any
individual deletion failure is fatal on the spot. -/
def deletePoliciesLoop (a : Args) (f : Faults) :
    List String → World → Option Outcome × List Call × World
  | [], w => (none, [], w)
  | n :: rest, w =>
    let c := Call.deletePolicy a.resourceID n
    if f.deletePolicy n then (some .fatal, [c], w)
    else
      let w' := { w with policies := w.policies.filter (fun q => q.1 != n) }
      let r := deletePoliciesLoop a f rest w'
      (r.1, c :: r.2.1, r.2.2)

/-- The candidate alarm-name set of the disable path (lines 457–472): the
four fixed default alarm names plus one derived name per custom policy that
declares both metric fields. -/
def disableAlarmNames (a : Args) (ps : List PolicyDef) : List String :=
  defaultAlarmNames a ++
    (ps.filter fun p => p.MetricName != "" && p.MetricNamespace != "").map
      (fun p => a.cluster ++ "-" ++ a.service ++ "-" ++ p.PolicyName)

/-- The batched alarm delete of the disable path (lines 487–496): one
`DeleteAlarms` call for the confirmed-existing subset, only when it is
non-empty. -/
def alarmBatch (f : Faults) (w : World) (existingAlarms : List String) :
    Option Outcome × List Call × World :=
  if existingAlarms.length > 0 then
    let c := Call.deleteAlarms existingAlarms
    if f.deleteAlarms then (some .fatal, [c], w)
    else (none, [c],
      { w with alarms := w.alarms.filter (fun n => !existingAlarms.contains n) })
  else (none, [], w)

/-- The tail of the disable path (lines 527–552): per-policy deletion loop,
then the unconditional deregister. -/
def disableTail (a : Args) (f : Faults) (c1 : List Call) (w1 : World)
    (existingPolicies : List String) : Outcome × List Call × World :=
  match deletePoliciesLoop a f existingPolicies w1 with
  | (some o, c2, w2) => (o, c1 ++ c2, w2)
  | (none, c2, w2) =>
    if f.deregisterTarget then
      (.fatal, c1 ++ c2 ++ [Call.deregisterTarget a.resourceID], w2)
    else
      (.success, c1 ++ c2 ++ [Call.deregisterTarget a.resourceID],
        { w2 with target := none })

/-- The disable (teardown) path of `main`, lines 427–553. -/
def runDisable (a : Args) (custom dflt : PolicyBlob) (f : Faults) (w : World) :
    Outcome × List Call × World :=
  match scalableTargetExists f w with
  | none => (.fatal, [], w)
  | some ex =>
    if !ex then (.success, [], w)
    else
      match effectivePolicies custom dflt with
      | none => (.fatal, [], w)
      | some ps =>
        let existingAlarms := probeAlarms f w (disableAlarmNames a ps)
        match alarmBatch f w existingAlarms with
        | (some o, c1, w1) => (o, c1, w1)
        | (none, c1, w1) =>
          disableTail a f c1 w1
            (probePolicies f w1 (deduplicate
              ([defaultOutName a, defaultInName a] ++ ps.map (·.PolicyName))))

/-- One full run of `main`: argument validation, then the enable or disable
path. -/
def runMain (raw : RawArgs) (custom dflt : PolicyBlob) (f : Faults) (w : World) :
    Outcome × List Call × World :=
  match parseArgs raw with
  | none => (.fatal, [], w)
  | some a =>
    if a.enabled then runEnable a custom dflt f w
    else runDisable a custom dflt f w

/-! ## Spec-side predicates and shared concrete instances -/

/-- The claim-level "nil-aware equal": both absent, or both present with the
same value. -/
def nilAwareEq (x y : Option Int) : Prop :=
  (x = none ∧ y = none) ∨ ∃ c, x = some c ∧ y = some c

/-- `sub` occurs at the head of `s`. -/
def leadsWith : List Char → List Char → Bool
  | [], _ => true
  | _ :: _, [] => false
  | a :: as, b :: bs => a == b && leadsWith as bs

/-- `sub` occurs somewhere in `s` (Go `strings.Contains`). -/
def containsSub : List Char → List Char → Bool
  | _, [] => true
  | [], _ :: _ => false
  | c :: cs, sub => leadsWith sub (c :: cs) || containsSub cs sub

/-- Modelled from the spec: the legacy fallback the spec describes for an
empty `scale_direction` — "inferring direction from a case-insensitive
substring match of `in` on the policy name" (the inference that exists in the
repository only inside a test helper, not in the alarm-creation path of
`main`). -/
def specInferScaleInFromName (name : String) : Bool :=
  containsSub name.data ['i', 'n'] || containsSub name.data ['I', 'n'] ||
  containsSub name.data ['i', 'N'] || containsSub name.data ['I', 'N']

/-- Modelled from the spec: the claim's dimension relation "every desired
dimension key is present in the live dimensions with an equal value". -/
def dimsSubset (desired existing : List MetricDimension) : Bool :=
  desired.all fun d => existing.any fun e => e.Name == d.Name && e.Value == d.Value

/-- A standard argument record shared by the concrete instances: all numeric
arguments at their documented defaults. -/
def argsStd : Args :=
  { cluster := "c", service := "s", enabled := true, minCap := 1, maxCap := 10,
    outCd := 300, inCd := 300, targetCPUOut := 75, targetCPUIn := 65,
    targetMemOut := 80, targetMemIn := 70 }

/-- A live state with nothing registered. -/
def emptyWorld : World := ⟨none, [], []⟩

/-- A live state with only the scalable target registered at (1, 10). -/
def targetWorld : World := ⟨some (1, 10), [], []⟩

/-- The raw arguments of a run with every optional argument left empty. -/
def rawStd : RawArgs :=
  { cluster := "c", service := "s", enabled := true,
    minCapArg := .absent, maxCapArg := .absent, outCdArg := .absent, inCdArg := .absent,
    cpuOutArg := .absent, cpuInArg := .absent, memOutArg := .absent, memInArg := .absent }

/-- `rawStd` with an unparsable numeric argument. -/
def rawBad : RawArgs := { rawStd with minCapArg := .bad }

/-- `rawStd` with the enabled flag off (teardown run). -/
def rawStdOff : RawArgs := { rawStd with enabled := false }

/-- A custom StepScaling policy named `svc-scale-in` with metric fields set,
a 60s cooldown, and no explicit scale direction. -/
def pStepIn : PolicyDef :=
  { PolicyName := "svc-scale-in", PolicyType := "StepScaling",
    MetricName := "CPUUtilization", MetricNamespace := "AWS/ECS",
    AdjustmentType := "ChangeInCapacity", Cooldown := some 60,
    MetricAggregationType := "Maximum",
    StepAdjustments := [⟨none, some 0, -1⟩],
    TargetTrackingConfiguration := none, ScaleDirection := "" }

/-- `pStepIn` with no cooldown in the JSON (`Cooldown` nil). -/
def pStepInNoCd : PolicyDef := { pStepIn with Cooldown := none }

/-- A policy with an unknown `policy_type`. -/
def pUnknown : PolicyDef :=
  { PolicyName := "p", PolicyType := "SimpleScaling", MetricName := "",
    MetricNamespace := "", AdjustmentType := "", Cooldown := none,
    MetricAggregationType := "", StepAdjustments := [],
    TargetTrackingConfiguration := none, ScaleDirection := "" }

/-- The `PutScalingPolicyInput` the driver builds for `pStepIn`. -/
def putStepInInput : PutScalingPolicyInput :=
  { ResourceId := "service/c/s", PolicyName := "svc-scale-in",
    PolicyType := "StepScaling",
    StepScalingPolicyConfiguration := some
      { AdjustmentType := "ChangeInCapacity", Cooldown := some 60,
        MetricAggregationType := "Maximum",
        StepAdjustments := [⟨none, some 0, some (-1)⟩] },
    TargetTrackingScalingPolicyConfiguration := none }

/-- The alarm input the driver builds for `pStepIn` on `targetWorld`. -/
def alarmStepIn : PutMetricAlarmInput :=
  { AlarmName := "c-s-svc-scale-in",
    AlarmDescription := "Scale based on CPUUtilization",
    Namespace := "AWS/ECS", MetricName := "CPUUtilization",
    Statistic := "Average", Period := 60, EvaluationPeriods := 2,
    Threshold := 75, ComparisonOperator := "GreaterThanOrEqualToThreshold",
    Dimensions := [("ClusterName", "c"), ("ServiceName", "s")],
    AlarmActions := ["arn:svc-scale-in"] }

/-- A live target-tracking policy whose customized metric carries dimensions
`a=1` and `b=2`. -/
def lpC6 : LivePolicy :=
  { PolicyName := "p", PolicyType := "TargetTrackingScaling", PolicyARN := "arn",
    StepScalingPolicyConfiguration := none,
    TargetTrackingScalingPolicyConfiguration := some
      ⟨some 50, none,
       some ⟨some "M", some "N", [⟨some "a", some "1"⟩, ⟨some "b", some "2"⟩], "Average"⟩,
       none, none⟩ }

/-- A desired policy identical to `lpC6` except that it asks only for the
dimension `a=1` (a strict subset of the live dimensions). -/
def inpC6 : PutScalingPolicyInput :=
  { ResourceId := "r", PolicyName := "p", PolicyType := "TargetTrackingScaling",
    StepScalingPolicyConfiguration := none,
    TargetTrackingScalingPolicyConfiguration := some
      ⟨some 50, none,
       some ⟨some "M", some "N", [⟨some "a", some "1"⟩], "Average"⟩,
       none, none⟩ }

/-- Live step configuration of the spec's length-mismatch scenario:
`[{lower:0, adj:1}]`. -/
def esC7 : StepScalingPolicyConfiguration :=
  ⟨"ChangeInCapacity", some 300, "Maximum", [⟨some 0, none, some 1⟩]⟩

/-- Desired step configuration of the spec's length-mismatch scenario:
`[{lower:0, adj:1}, {upper:0, adj:-1}]`. -/
def dsC7 : StepScalingPolicyConfiguration :=
  ⟨"ChangeInCapacity", some 300, "Maximum",
   [⟨some 0, none, some 1⟩, ⟨none, some 0, some (-1)⟩]⟩

/-- A live policy carrying `esC7`. -/
def lpC7 : LivePolicy := ⟨"p", "StepScaling", "arn", some esC7, none⟩

/-- A desired policy carrying `dsC7`. -/
def inpC7 : PutScalingPolicyInput := ⟨"r", "p", "StepScaling", some dsC7, none⟩

/-- The built-in scale-out policy input for `argsStd`. -/
def outInputW1 : PutScalingPolicyInput :=
  defaultPolicyInput argsStd (defaultOutName argsStd) 1 300

/-- The built-in scale-in policy input for `argsStd`. -/
def inInputW1 : PutScalingPolicyInput :=
  defaultPolicyInput argsStd (defaultInName argsStd) (-1) 300

/-- A live state that already matches the desired state of `argsStd` with no
custom policies: target at (1, 10), both built-in policies stored as written,
all four default alarms present. -/
def wMatchW1 : World :=
  ⟨some (1, 10),
   [(defaultOutName argsStd, livePolicyOf outInputW1 "arnO"),
    (defaultInName argsStd, livePolicyOf inInputW1 "arnI")],
   ["c-s-cpu-high", "c-s-cpu-low", "c-s-mem-high", "c-s-mem-low"]⟩

/-- A live state mid-teardown: target registered, one built-in policy and
two default alarms present. -/
def wTear : World :=
  ⟨some (1, 10),
   [(defaultOutName argsStd, livePolicyOf outInputW1 "arnO")],
   ["c-s-cpu-high", "c-s-cpu-low"]⟩

/-- Faults: only the existence probe of alarm `c-s-cpu-high` fails. -/
def fAlarmFault : Faults := { noFaults with describeAlarm := fun n => n == "c-s-cpu-high" }

/-- Faults: only the deletion of the built-in scale-out policy fails. -/
def fDelFault : Faults := { noFaults with deletePolicy := fun n => n == defaultOutName argsStd }

/-- One step adjustment matches another in the claim's sense: nil-aware
equal bounds and equal (present) scaling adjustments. -/
def stepAdjMatch (e d : AwsStepAdjustment) : Prop :=
  nilAwareEq e.MetricIntervalLowerBound d.MetricIntervalLowerBound ∧
  nilAwareEq e.MetricIntervalUpperBound d.MetricIntervalUpperBound ∧
  ∃ x, e.ScalingAdjustment = some x ∧ d.ScalingAdjustment = some x

/-! ## Theorems -/

theorem nilAwareEq_iff (x y : Option Int) : nilAwareEq x y ↔ x = y := by
  cases x <;> cases y <;> simp [nilAwareEq, eq_comm]

theorem compareStepAdjLists_cons (e d : AwsStepAdjustment) (es ds : List AwsStepAdjustment) :
    compareStepAdjLists (e :: es) (d :: ds) = some true ↔
      (stepAdjMatch e d ∧ compareStepAdjLists es ds = some true) := by
  obtain ⟨l1, u1, a1⟩ := e
  obtain ⟨l2, u2, a2⟩ := d
  simp only [compareStepAdjLists, stepAdjMatch, optPresenceDiffers, optValuesDiffer,
    nilAwareEq_iff]
  cases l1 <;> cases l2 <;> cases u1 <;> cases u2 <;> cases a1 <;> cases a2 <;>
    simp_all [bne_iff_ne, Option.bind] <;>
    (try (split_ifs <;> simp_all)) <;>
    (try (intro h; subst h; simp_all))

theorem compareStepAdjLists_iff (es ds : List AwsStepAdjustment) :
    compareStepAdjLists es ds = some true ↔ List.Forall₂ stepAdjMatch es ds := by
  induction es generalizing ds with
  | nil => cases ds <;> simp [compareStepAdjLists]
  | cons e es ih =>
    cases ds with
    | nil => simp [compareStepAdjLists]
    | cons d ds => rw [compareStepAdjLists_cons, List.forall₂_cons, ih]

theorem compareStepConfigs_eq_true_iff (es ds : StepScalingPolicyConfiguration) :
    compareStepConfigs es ds = some true ↔
      es.AdjustmentType = ds.AdjustmentType ∧
      es.MetricAggregationType = ds.MetricAggregationType ∧
      es.Cooldown = ds.Cooldown ∧
      List.Forall₂ stepAdjMatch es.StepAdjustments ds.StepAdjustments := by
  obtain ⟨at1, cd1, mat1, sa1⟩ := es
  obtain ⟨at2, cd2, mat2, sa2⟩ := ds
  simp only [compareStepConfigs]
  by_cases hlen : sa1.length = sa2.length
  · cases cd1 <;> cases cd2 <;>
      simp_all [optPresenceDiffers, optValuesDiffer, bne_iff_ne, compareStepAdjLists_iff] <;>
      split_ifs <;>
      simp_all <;>
      (try (intro h; subst h; simp_all)) <;>
      (try exact compareStepAdjLists_iff _ _)
  · have hnf : ¬ List.Forall₂ stepAdjMatch sa1 sa2 := fun h => hlen h.length_eq
    cases cd1 <;> cases cd2 <;>
      simp_all [optPresenceDiffers, optValuesDiffer, bne_iff_ne] <;>
      split_ifs <;> simp_all

theorem compareStepConfigs_len_ne (es ds : StepScalingPolicyConfiguration)
    (h : es.StepAdjustments.length ≠ ds.StepAdjustments.length) :
    compareStepConfigs es ds = some false := by
  simp only [compareStepConfigs]
  split_ifs <;> simp_all [bne_iff_ne]

theorem compareScalingPolicy_step (lp : LivePolicy) (inp : PutScalingPolicyInput)
    (es ds : StepScalingPolicyConfiguration)
    (hlt : lp.PolicyType = "StepScaling") (hdt : inp.PolicyType = "StepScaling")
    (hls : lp.StepScalingPolicyConfiguration = some es)
    (hds : inp.StepScalingPolicyConfiguration = some ds) :
    compareScalingPolicy (some lp) inp = compareStepConfigs es ds := by
  simp [compareScalingPolicy, hlt, hdt, hls, hds]

/-- **C7.** StepScaling policy equivalence is positional and nil-aware: the
comparator returns `some true` exactly when adjustment type, metric
aggregation type and cooldown (nil-aware) match and the step-adjustment
lists match positionally (`List.Forall₂` enforces equal length and per-index
matching of nil-aware lower bound, nil-aware upper bound and scaling
adjustment); and for lists of different lengths it returns `some false`,
which makes the driver issue an update. -/
theorem stepScaling_policy_equivalence
    (lp : LivePolicy) (inp : PutScalingPolicyInput)
    (es ds : StepScalingPolicyConfiguration)
    (hlt : lp.PolicyType = "StepScaling") (hdt : inp.PolicyType = "StepScaling")
    (hls : lp.StepScalingPolicyConfiguration = some es)
    (hds : inp.StepScalingPolicyConfiguration = some ds) :
    (compareScalingPolicy (some lp) inp = some true ↔
       es.AdjustmentType = ds.AdjustmentType ∧
       es.MetricAggregationType = ds.MetricAggregationType ∧
       nilAwareEq es.Cooldown ds.Cooldown ∧
       List.Forall₂ stepAdjMatch es.StepAdjustments ds.StepAdjustments) ∧
    (es.StepAdjustments.length ≠ ds.StepAdjustments.length →
       compareScalingPolicy (some lp) inp = some false) := by
  rw [compareScalingPolicy_step lp inp es ds hlt hdt hls hds]
  exact ⟨by rw [compareStepConfigs_eq_true_iff, nilAwareEq_iff],
         fun h => compareStepConfigs_len_ne es ds h⟩

/-- Witness for C7, the spec's own scenario: live step adjustments
`[{lower:0, adj:1}]` against desired `[{lower:0, adj:1}, {upper:0, adj:-1}]`
(different lengths) make the comparator return false. -/
theorem stepScaling_policy_equivalence_witness :
    compareScalingPolicy (some lpC7) inpC7 = some false :=
  (stepScaling_policy_equivalence lpC7 inpC7 esC7 dsC7 rfl rfl rfl rfl).2 (by decide)

theorem checkDesiredDims_iff (m : List (String × String)) (ds : List MetricDimension) :
    checkDesiredDims m ds = some true ↔
      ∀ d ∈ ds, ∃ n v, d.Name = some n ∧ d.Value = some v ∧ goMapLookup m n = v := by
  induction ds with
  | nil => simp [checkDesiredDims]
  | cons d rest ih =>
    obtain ⟨dn, dv⟩ := d
    cases dn <;> cases dv <;>
      simp_all [checkDesiredDims, Option.bind, bne_iff_ne] <;>
      split_ifs <;> simp_all <;>
      (try (intro h; subst h; simp_all))

/-- **C6 (amended).** Dimension comparison in the TargetTrackingScaling
policy comparator first requires the live and desired dimension lists to
have equal length; only then is each desired dimension checked against the
live key→value map (a key absent from the live map reads as the empty
string).  Subject to the length gate it is a desired-into-live map check,
not an order-sensitive list equality. -/
theorem dimension_comparison_characterisation
    (existing desired : List MetricDimension)
    (m : List (String × String)) (hm : buildDimMap existing = some m) :
    compareDimensions existing desired = some true ↔
      existing.length = desired.length ∧
      ∀ d ∈ desired, ∃ n v, d.Name = some n ∧ d.Value = some v ∧ goMapLookup m n = v := by
  unfold compareDimensions
  rw [hm]
  split_ifs with h
  · simp_all [bne_iff_ne]
  · have hb : (Bind.bind (some m) fun x => checkDesiredDims x desired) =
        checkDesiredDims m desired := rfl
    rw [hb, checkDesiredDims_iff]
    simp_all [bne_iff_ne]

/-- Witness for the amended C6 on a concrete input: equal lengths with the
desired pair found in the live map give a match. -/
theorem dimension_comparison_characterisation_witness :
    compareDimensions [⟨some "a", some "1"⟩] [⟨some "a", some "1"⟩] = some true :=
  (dimension_comparison_characterisation [⟨some "a", some "1"⟩] [⟨some "a", some "1"⟩]
    [("a", "1")] rfl).mpr ⟨rfl, by simp [goMapLookup]⟩

/-- **C6 (counterexample).** The claim says the comparator performs a
desired-subset-of-live check and that live dimensions may carry additional
keys without causing a mismatch.  Here every desired dimension (`a=1`) is
present in the live dimensions (`a=1`, `b=2`) with an equal value — the
claim's subset relation holds — yet the comparator answers `some false`,
because of the length-equality gate at `main.go:291`. -/
theorem dimension_subset_claim_false :
    dimsSubset [⟨some "a", some "1"⟩] [⟨some "a", some "1"⟩, ⟨some "b", some "2"⟩] = true ∧
    compareScalingPolicy (some lpC6) inpC6 = some false :=
  ⟨rfl, rfl⟩

theorem processPolicy_putAlarm_inv (a : Args) (f : Faults) (p : PolicyDef) (w : World)
    (inp : PutMetricAlarmInput)
    (h : Call.putAlarm inp ∈ (processPolicy a f p w).2.1) :
    p.PolicyType = "StepScaling" ∧ p.MetricName ≠ "" ∧ p.MetricNamespace ≠ "" ∧
    lookupPolicy w p.PolicyName = none ∧
    inp.AlarmName = a.cluster ++ "-" ++ a.service ++ "-" ++ p.PolicyName ∧
    w.alarms.contains inp.AlarmName = false ∧
    (∃ cd, p.Cooldown = some cd ∧ inp.Period = cd) ∧
    inp.Threshold = (if p.ScaleDirection = "in" then a.targetCPUIn else a.targetCPUOut) ∧
    inp.ComparisonOperator =
      (if p.ScaleDirection = "in" then "LessThanOrEqualToThreshold"
       else "GreaterThanOrEqualToThreshold") := by
  simp only [processPolicy] at h
  split at h
  · simp at h
  · simp at h
  · rename_i input heqb
    split at h
    · simp at h
    · split at h
      · simp at h
      · split at h
        · -- afterPut returned an abort: only a possible putPolicy call in the trace
          rename_i heq
          split at heq
          · simp at heq
          · split at heq
            · simp only [Prod.mk.injEq] at heq
              obtain ⟨-, -, hc, -⟩ := heq
              subst hc
              simp at h
            · simp at heq
        · -- afterPut continued
          rename_i policyExists calls w' heq
          split at heq
          · -- policy matched: policyExists = true, the alarm gate is off
            simp only [Prod.mk.injEq] at heq
            obtain ⟨-, hpe, hc, hw⟩ := heq
            subst hpe; subst hc; subst hw
            simp_all
          · split at heq
            · -- a putPolicy fault aborts and cannot continue
              simp at heq
            · -- putPolicy issued and succeeded
              simp only [Prod.mk.injEq] at heq
              obtain ⟨-, hpe, hc, hw⟩ := heq
              subst hpe; subst hc; subst hw
              split at h
              · -- alarm gate on
                rename_i hgate
                simp only [Bool.and_eq_true, beq_iff_eq, bne_iff_ne,
                  Bool.not_eq_true'] at hgate
                obtain ⟨⟨⟨hty, hmn⟩, hns⟩, hpe2⟩ := hgate
                have hlookup : lookupPolicy w p.PolicyName = none := by
                  cases hq : lookupPolicy w p.PolicyName with
                  | none => rfl
                  | some v => rw [hq] at hpe2; simp at hpe2
                split at h
                · simp at h
                · rename_i lp hlp
                  split at h
                  · simp at h
                  · rename_i cd hcd
                    split at h
                    · simp at h
                    · rename_i alarmExists hchk
                      split at h
                      · simp at h
                      · -- alarm absent: the putAlarm call is issued
                        rename_i halarm
                        simp only [checkCloudWatchAlarm] at hchk
                        split at hchk
                        · exact absurd hchk (by simp)
                        · simp only [Option.some.injEq] at hchk
                          have halarms : (putPolicyWorld w input).alarms = w.alarms := rfl
                          rw [halarms] at hchk
                          have hcontains : w.alarms.contains
                              (a.cluster ++ "-" ++ a.service ++ "-" ++ p.PolicyName) = false := by
                            rw [hchk]
                            simp only [Bool.not_eq_true] at halarm
                            exact halarm
                          split at h <;>
                          · simp only [List.mem_append, List.mem_singleton, List.mem_cons,
                              List.not_mem_nil, or_false, false_or, reduceCtorEq,
                              Call.putAlarm.injEq] at h
                            subst h
                            refine ⟨hty, hmn, hns, hlookup, rfl, hcontains, ⟨cd, hcd, rfl⟩, ?_, ?_⟩
                            · by_cases hdir : p.ScaleDirection = "in"
                              · simp [hdir]
                              · by_cases hdir2 : p.ScaleDirection = "out" <;> simp [hdir, hdir2]
                            · by_cases hdir : p.ScaleDirection = "in"
                              · simp [hdir]
                              · by_cases hdir2 : p.ScaleDirection = "out" <;> simp [hdir, hdir2]
              · -- alarm gate off
                simp at h

/-- **C3.** Alarm create-once: a `putAlarm` call is issued while processing
a custom policy only if the policy is a StepScaling policy with both metric
fields non-empty, the policy did not exist before this step (the pre-run
existence check — here, the live lookup — returns absent), the alarm carries
the derived name `{cluster}-{service}-{policy_name}`, and no alarm of that
name already exists.  In particular, if the policy already existed — even
when an update was issued — no alarm write occurs. -/
theorem alarm_create_once (a : Args) (f : Faults) (p : PolicyDef) (w : World)
    (inp : PutMetricAlarmInput)
    (h : Call.putAlarm inp ∈ (processPolicy a f p w).2.1) :
    p.PolicyType = "StepScaling" ∧ p.MetricName ≠ "" ∧ p.MetricNamespace ≠ "" ∧
    lookupPolicy w p.PolicyName = none ∧
    inp.AlarmName = a.cluster ++ "-" ++ a.service ++ "-" ++ p.PolicyName ∧
    w.alarms.contains inp.AlarmName = false := by
  obtain ⟨h1, h2, h3, h4, h5, h6, -, -, -⟩ := processPolicy_putAlarm_inv a f p w inp h
  exact ⟨h1, h2, h3, h4, h5, h6⟩

/-- Witness for C3: the concrete run that creates policy `svc-scale-in` and
its alarm started from a state with neither present. -/
theorem alarm_create_once_witness :
    lookupPolicy targetWorld pStepIn.PolicyName = none ∧
    targetWorld.alarms.contains alarmStepIn.AlarmName = false := by
  have h := alarm_create_once argsStd noFaults pStepIn targetWorld alarmStepIn (by decide)
  exact ⟨h.2.2.2.1, h.2.2.2.2.2⟩

/-- **C5 (counterexample).** A policy named `svc-scale-in` (whose name
contains `in`, so the claim's substring fallback would select the
in-threshold and `≤`) with empty `scale_direction` gets its alarm created
with the *out*-threshold (75, not 65) and `≥`: the alarm-creation path never
consults the policy name. -/
theorem scale_direction_fallback_claim_false :
    pStepIn.ScaleDirection = "" ∧
    specInferScaleInFromName pStepIn.PolicyName = true ∧
    argsStd.targetCPUIn ≠ argsStd.targetCPUOut ∧
    (processPolicy argsStd noFaults pStepIn targetWorld).2.1 =
      [Call.putPolicy putStepInInput, Call.putAlarm alarmStepIn] ∧
    alarmStepIn.Threshold = argsStd.targetCPUOut ∧
    alarmStepIn.ComparisonOperator = "GreaterThanOrEqualToThreshold" :=
  ⟨rfl, by decide, by decide, by decide, rfl, rfl⟩

/-- **C5 (amended).** On the alarm-creation path, `scale_direction = "in"`
selects (in-threshold, ≤) and *any other value — including the empty
string — selects (out-threshold, ≥)*; the empty string does not fall back to
substring inference on the policy name there. -/
theorem alarm_direction_selection (a : Args) (f : Faults) (p : PolicyDef) (w : World)
    (inp : PutMetricAlarmInput)
    (h : Call.putAlarm inp ∈ (processPolicy a f p w).2.1) :
    (p.ScaleDirection = "in" →
       inp.Threshold = a.targetCPUIn ∧
       inp.ComparisonOperator = "LessThanOrEqualToThreshold") ∧
    (p.ScaleDirection ≠ "in" →
       inp.Threshold = a.targetCPUOut ∧
       inp.ComparisonOperator = "GreaterThanOrEqualToThreshold") := by
  obtain ⟨-, -, -, -, -, -, -, hth, hop⟩ := processPolicy_putAlarm_inv a f p w inp h
  constructor
  · intro hdir; rw [hth, hop]; simp [hdir]
  · intro hdir; rw [hth, hop]; simp [hdir]

/-- Witness for the amended C5 at the empty-direction instance. -/
theorem alarm_direction_selection_witness :
    alarmStepIn.Threshold = argsStd.targetCPUOut ∧
    alarmStepIn.ComparisonOperator = "GreaterThanOrEqualToThreshold" :=
  (alarm_direction_selection argsStd noFaults pStepIn targetWorld alarmStepIn
    (by decide)).2 (by decide)

theorem lookupPolicy_putPolicyWorld_new (w : World) (i : PutScalingPolicyInput)
    (h : lookupPolicy w i.PolicyName = none) :
    lookupPolicy (putPolicyWorld w i) i.PolicyName =
      some (livePolicyOf i ("arn:" ++ i.PolicyName)) := by
  have h' : List.lookup i.PolicyName w.policies = none := h
  simp [putPolicyWorld, lookupPolicy, h', List.lookup]

/-- **C9.** For a new custom StepScaling policy with both metric fields set
and no `cooldown` in its JSON, the enable path crashes with a nil-pointer
dereference (`Period: aws.Int32(*p.Cooldown)`, `main.go:709`) while building
the alarm input, after having issued only the `putPolicy` write: a non-nil
cooldown is a precondition of the alarm-creation path. -/
theorem nil_cooldown_alarm_crash (a : Args) (f : Faults) (p : PolicyDef) (w : World)
    (hty : p.PolicyType = "StepScaling") (hmn : p.MetricName ≠ "")
    (hns : p.MetricNamespace ≠ "") (hcd : p.Cooldown = none)
    (habs : lookupPolicy w p.PolicyName = none)
    (hf1 : f.describePolicies p.PolicyName = false)
    (hf2 : f.putPolicy p.PolicyName = false) :
    ∃ input, buildPolicyInput a.resourceID p = .ok input ∧
      processPolicy a f p w =
        (some Outcome.crashed, [Call.putPolicy input], putPolicyWorld w input) := by
  simp only [buildPolicyInput, hty, beq_self_eq_true, if_true]
  refine ⟨_, rfl, ?_⟩
  have hname : (PutScalingPolicyInput.mk a.resourceID p.PolicyName "StepScaling"
      (some { AdjustmentType := p.AdjustmentType, Cooldown := p.Cooldown,
              MetricAggregationType := p.MetricAggregationType,
              StepAdjustments := p.StepAdjustments.map fun adj =>
                { MetricIntervalLowerBound := adj.MetricIntervalLowerBound,
                  MetricIntervalUpperBound := adj.MetricIntervalUpperBound,
                  ScalingAdjustment := some adj.ScalingAdjustment } })
      none).PolicyName = p.PolicyName := rfl
  simp only [processPolicy, buildPolicyInput, hty, beq_self_eq_true, if_true, hf1,
    Bool.false_eq_true, if_false, habs, compareScalingPolicy, hf2,
    Option.isSome_none, hcd]
  rw [lookupPolicy_putPolicyWorld_new w _ (by rw [hname]; exact habs)]
  simp [hty, hmn, hns, hcd]

/-- Witness for C9: `pStepInNoCd` (no cooldown) crashes the run. -/
theorem nil_cooldown_alarm_crash_witness :
    (processPolicy argsStd noFaults pStepInNoCd targetWorld).1 = some Outcome.crashed := by
  obtain ⟨input, -, heq⟩ := nil_cooldown_alarm_crash argsStd noFaults pStepInNoCd targetWorld
    rfl (by decide) (by decide) rfl rfl rfl rfl
  rw [heq]

/-- **C10.** Every alarm created on the custom-policy path takes its
threshold from the CPU-utilization arguments — the in-threshold when
`scale_direction` is `"in"`, the out-threshold otherwise — regardless of the
policy's own metric name/namespace; and the processing of a custom policy is
entirely independent of the memory-utilization arguments (they are used only
by the default-path alarms). -/
theorem custom_alarm_threshold_source :
    (∀ (a : Args) (f : Faults) (p : PolicyDef) (w : World) (inp : PutMetricAlarmInput),
       Call.putAlarm inp ∈ (processPolicy a f p w).2.1 →
       inp.Threshold = (if p.ScaleDirection = "in" then a.targetCPUIn else a.targetCPUOut)) ∧
    (∀ (a : Args) (f : Faults) (p : PolicyDef) (w : World) (x y : Int),
       processPolicy { a with targetMemOut := x, targetMemIn := y } f p w =
         processPolicy a f p w) := by
  constructor
  · intro a f p w inp h
    exact (processPolicy_putAlarm_inv a f p w inp h).2.2.2.2.2.2.2.1
  · intro a f p w x y
    rfl

/-- Witness for C10 at the concrete `svc-scale-in` run. -/
theorem custom_alarm_threshold_source_witness :
    alarmStepIn.Threshold =
      (if pStepIn.ScaleDirection = "in" then argsStd.targetCPUIn else argsStd.targetCPUOut) ∧
    processPolicy { argsStd with targetMemOut := 5, targetMemIn := 3 }
        noFaults pStepIn targetWorld =
      processPolicy argsStd noFaults pStepIn targetWorld :=
  ⟨custom_alarm_threshold_source.1 argsStd noFaults pStepIn targetWorld alarmStepIn (by decide),
   custom_alarm_threshold_source.2 argsStd noFaults pStepIn targetWorld 5 3⟩

theorem parseArgs_fields (raw : RawArgs) (a : Args) (h : parseArgs raw = some a) :
    a.cluster = raw.cluster ∧ a.service = raw.service ∧ a.enabled = raw.enabled := by
  simp only [parseArgs, Option.bind_eq_bind, Option.bind_eq_some, Option.some.injEq] at h
  obtain ⟨m1, h1, m2, h2, m3, h3, m4, h4, m5, h5, m6, h6, m7, h7, m8, h8, ha⟩ := h
  subst ha
  exact ⟨rfl, rfl, rfl⟩

theorem targetStep_abort (a : Args) (f : Faults) (w : World) (o : Outcome)
    (h : (targetStep a f w).1 = some o) : o = .fatal := by
  unfold targetStep checkScalableTarget at h
  split_ifs at h <;> (try split at h) <;> (try split at h) <;> simp_all

theorem targetStep_calls (a : Args) (f : Faults) (w : World) :
    ∀ c ∈ (targetStep a f w).2.1, ∃ rid mn mx, c = Call.registerTarget rid mn mx := by
  intro c hc
  unfold targetStep checkScalableTarget at hc
  split_ifs at hc <;> (try split at hc) <;> (try split at hc) <;> simp_all <;>
    exact ⟨_, _, _, by simp_all⟩

/-- **C2 (amended).** Input-validation behavior as the code implements it:
(1) a bad numeric argument aborts before any call of any kind;
(2) on an enabled run, a malformed scaling-policies blob aborts with a fatal
outcome having issued no policy, alarm or delete write — but the preceding
scalable-target reconciliation may already have issued a `registerTarget`
write, so "zero write calls of any kind" does not hold;
(3) on a disable run whose scalable target is registered, the malformed blob
aborts before any write;
(4) an unknown `policy_type` aborts when that policy is processed, with no
write for that policy (writes for earlier policies in the list may already
have been issued). -/
theorem input_validation_abort :
    (∀ (raw : RawArgs) (custom dflt : PolicyBlob) (f : Faults) (w : World),
       parseArgs raw = none →
       runMain raw custom dflt f w = (.fatal, [], w)) ∧
    (∀ (raw : RawArgs) (dflt : PolicyBlob) (f : Faults) (w : World),
       raw.enabled = true →
       (runMain raw .malformed dflt f w).1 = .fatal ∧
       ∀ c ∈ (runMain raw .malformed dflt f w).2.1,
         ∃ rid mn mx, c = Call.registerTarget rid mn mx) ∧
    (∀ (raw : RawArgs) (dflt : PolicyBlob) (f : Faults) (w : World),
       raw.enabled = false → w.target.isSome →
       runMain raw .malformed dflt f w = (.fatal, [], w)) ∧
    (∀ (a : Args) (f : Faults) (p : PolicyDef) (w : World),
       p.PolicyType ≠ "StepScaling" → p.PolicyType ≠ "TargetTrackingScaling" →
       processPolicy a f p w = (some .fatal, [], w)) := by
  refine ⟨?_, ?_, ?_, ?_⟩
  · intro raw custom dflt f w h
    simp [runMain, h]
  · intro raw dflt f w hen
    cases h : parseArgs raw with
    | none => simp [runMain, h]
    | some a =>
      have hae : a.enabled = raw.enabled := (parseArgs_fields raw a h).2.2
      simp only [runMain, h, hae, hen, if_true]
      rcases htt : targetStep a f w with ⟨o, c0, w0⟩
      have hcalls := targetStep_calls a f w
      rw [htt] at hcalls
      cases o with
      | some o' =>
        have := targetStep_abort a f w o' (by rw [htt])
        subst this
        simp only [runEnable, htt]
        exact ⟨by trivial, hcalls⟩
      | none =>
        simp only [runEnable, htt, effectivePolicies]
        exact ⟨by trivial, hcalls⟩
  · intro raw dflt f w hen htar
    cases h : parseArgs raw with
    | none => simp [runMain, h]
    | some a =>
      have hae : a.enabled = raw.enabled := (parseArgs_fields raw a h).2.2
      simp only [runMain, h, hae, hen, if_false, Bool.false_eq_true]
      by_cases hf : f.describeTarget
      · simp [runDisable, scalableTargetExists, hf]
      · simp [runDisable, scalableTargetExists, hf, htar, effectivePolicies]
  · intro a f p w h1 h2
    simp [processPolicy, buildPolicyInput, beq_eq_false_iff_ne, h1, h2]

/-- Witness for the amended C2, one concrete instance per part. -/
theorem input_validation_abort_witness :
    runMain rawBad .empty .empty noFaults emptyWorld = (.fatal, [], emptyWorld) ∧
    (runMain rawStd .malformed .empty noFaults emptyWorld).1 = .fatal ∧
    runMain rawStdOff .malformed .empty noFaults targetWorld = (.fatal, [], targetWorld) ∧
    processPolicy argsStd noFaults pUnknown targetWorld = (some .fatal, [], targetWorld) :=
  ⟨input_validation_abort.1 rawBad .empty .empty noFaults emptyWorld rfl,
   (input_validation_abort.2.1 rawStd .empty noFaults emptyWorld rfl).1,
   input_validation_abort.2.2.1 rawStdOff .empty noFaults targetWorld rfl rfl,
   input_validation_abort.2.2.2 argsStd noFaults pUnknown targetWorld (by decide) (by decide)⟩

/-- **C2 (counterexample).** An enabled run with no registered scalable
target and a malformed scaling-policies blob issues the `registerTarget`
write *before* the fatal JSON-parse abort: the claim's "zero write calls of
any kind are issued before the nonzero-exit abort" is false. -/
theorem malformed_blob_write_claim_false :
    runMain rawStd .malformed .empty noFaults emptyWorld =
      (.fatal, [Call.registerTarget "service/c/s" 1 10], ⟨some (1, 10), [], []⟩) ∧
    (runMain rawStd .malformed .empty noFaults emptyWorld).2.1 ≠ [] :=
  ⟨rfl, by decide⟩

theorem targetStep_cont (a : Args) (f : Faults) (w : World)
    (h1 : f.describeTarget = false) (h2 : f.registerTarget = false) :
    (targetStep a f w).1 = none ∧ (targetStep a f w).2.2.policies = w.policies ∧
    (targetStep a f w).2.2.alarms = w.alarms := by
  unfold targetStep checkScalableTarget
  simp only [h1, Bool.false_eq_true, if_false, h2]
  split <;> simp

theorem lookup_filter_ne (l : List (String × LivePolicy)) (n m : String) (h : n ≠ m) :
    (l.filter fun q => q.1 != m).lookup n = l.lookup n := by
  induction l with
  | nil => rfl
  | cons q rest ih =>
    obtain ⟨k, v⟩ := q
    simp only [List.filter_cons]
    by_cases hk : k = m
    · subst hk
      simp only [bne_self_eq_false, cond_false, if_false, Bool.false_eq_true]
      rw [ih]
      have hb : (n == k) = false := beq_eq_false_iff_ne.mpr h
      simp [List.lookup, hb]
    · have hkeep : (k != m) = true := by simp [bne_iff_ne, hk]
      simp only [hkeep, if_true]
      by_cases hkn : n = k
      · subst hkn; simp [List.lookup]
      · have h1 : (n == k) = false := beq_eq_false_iff_ne.mpr hkn
        simp [List.lookup, h1, ih]

theorem lookupPolicy_putPolicyWorld_ne (w : World) (i : PutScalingPolicyInput) (n : String)
    (h : n ≠ i.PolicyName) :
    lookupPolicy (putPolicyWorld w i) n = lookupPolicy w n := by
  have hb : (n == i.PolicyName) = false := beq_eq_false_iff_ne.mpr h
  simp only [putPolicyWorld, lookupPolicy, List.lookup, hb]
  exact lookup_filter_ne w.policies n i.PolicyName h

theorem defaultNames_ne (a : Args) : defaultOutName a ≠ defaultInName a := by
  intro h
  have := congrArg String.length h
  simp [defaultOutName, defaultInName, String.length_append] at this
  exact absurd this (by decide)

theorem noFaults_describePolicies (n : String) : noFaults.describePolicies n = false := rfl

theorem reconcileDefaultPolicy_absent (a : Args) (name : String) (adjust cd : Int)
    (w : World) (habs : lookupPolicy w name = none) :
    reconcileDefaultPolicy a noFaults name adjust cd w =
      (none, [Call.putPolicy (defaultPolicyInput a name adjust cd)],
       putPolicyWorld w (defaultPolicyInput a name adjust cd)) := by
  unfold reconcileDefaultPolicy
  simp [noFaults, habs, compareScalingPolicy]

theorem defaultPath_creates (a : Args) (w : World)
    (hout : lookupPolicy w (defaultOutName a) = none)
    (hin : lookupPolicy w (defaultInName a) = none) :
    ∃ rest, (defaultPath a noFaults w).2.1 =
      Call.putPolicy (defaultPolicyInput a (defaultOutName a) 1 a.outCd) ::
      Call.putPolicy (defaultPolicyInput a (defaultInName a) (-1) a.inCd) :: rest := by
  have hne : defaultInName a ≠ defaultOutName a := (defaultNames_ne a).symm
  have hin1 : lookupPolicy
      (putPolicyWorld w (defaultPolicyInput a (defaultOutName a) 1 a.outCd))
      (defaultInName a) = none := by
    rw [lookupPolicy_putPolicyWorld_ne w _ (defaultInName a) hne]
    exact hin
  have hlookO : lookupPolicy
      (putPolicyWorld (putPolicyWorld w (defaultPolicyInput a (defaultOutName a) 1 a.outCd))
        (defaultPolicyInput a (defaultInName a) (-1) a.inCd))
      (defaultOutName a) =
      some (livePolicyOf (defaultPolicyInput a (defaultOutName a) 1 a.outCd)
        ("arn:" ++ defaultOutName a)) := by
    rw [lookupPolicy_putPolicyWorld_ne _ _ (defaultOutName a) hne.symm]
    exact lookupPolicy_putPolicyWorld_new w _ hout
  have hlookI : lookupPolicy
      (putPolicyWorld (putPolicyWorld w (defaultPolicyInput a (defaultOutName a) 1 a.outCd))
        (defaultPolicyInput a (defaultInName a) (-1) a.inCd))
      (defaultInName a) =
      some (livePolicyOf (defaultPolicyInput a (defaultInName a) (-1) a.inCd)
        ("arn:" ++ defaultInName a)) :=
    lookupPolicy_putPolicyWorld_new _ _ hin1
  unfold defaultPath
  simp only [reconcileDefaultPolicy_absent a (defaultOutName a) 1 a.outCd w hout,
    reconcileDefaultPolicy_absent a (defaultInName a) (-1) a.inCd _ hin1,
    noFaults_describePolicies, Bool.false_eq_true, if_false, hlookO, hlookI, livePolicyOf]
  obtain ⟨o3, c3, w3, halarm⟩ : ∃ o3 c3 w3, alarmsLoop noFaults
      (defaultAlarmInputs a ("arn:" ++ defaultOutName a) ("arn:" ++ defaultInName a))
      (putPolicyWorld (putPolicyWorld w (defaultPolicyInput a (defaultOutName a) 1 a.outCd))
        (defaultPolicyInput a (defaultInName a) (-1) a.inCd)) = (o3, c3, w3) :=
    ⟨_, _, _, rfl⟩
  rw [halarm]
  cases o3 <;> exact ⟨c3, rfl⟩

/-- **C4.** Policy-source precedence: (1) when the custom blob parses, the
run result is entirely independent of the default blob (its content can
appear in no write call); (2) when the custom blob is the empty string, the
parsed default blob is the effective policy list; (3) when both blobs are
empty, an enabled fault-free run with neither built-in policy live issues
the built-in template writes `{cluster}-{service}-scale-out` (adjustment +1)
and `{cluster}-{service}-scale-in` (adjustment -1). -/
theorem policy_source_precedence :
    (∀ (raw : RawArgs) (ps : List PolicyDef) (d1 d2 : PolicyBlob) (f : Faults) (w : World),
       runMain raw (.parsed ps) d1 f w = runMain raw (.parsed ps) d2 f w) ∧
    (∀ ps : List PolicyDef, effectivePolicies .empty (.parsed ps) = some ps) ∧
    (∀ (a : Args) (w : World),
       lookupPolicy w (defaultOutName a) = none →
       lookupPolicy w (defaultInName a) = none →
       Call.putPolicy (defaultPolicyInput a (defaultOutName a) 1 a.outCd) ∈
         (runEnable a .empty .empty noFaults w).2.1 ∧
       Call.putPolicy (defaultPolicyInput a (defaultInName a) (-1) a.inCd) ∈
         (runEnable a .empty .empty noFaults w).2.1) := by
  refine ⟨fun raw ps d1 d2 f w => rfl, fun ps => rfl, ?_⟩
  intro a w hout hin
  obtain ⟨ht1, ht2, -⟩ := targetStep_cont a noFaults w rfl rfl
  rcases htt : targetStep a noFaults w with ⟨o, c0, w0⟩
  rw [htt] at ht1 ht2
  simp only at ht1 ht2
  subst ht1
  have hout0 : lookupPolicy w0 (defaultOutName a) = none := by
    unfold lookupPolicy at hout ⊢; rw [ht2]; exact hout
  have hin0 : lookupPolicy w0 (defaultInName a) = none := by
    unfold lookupPolicy at hin ⊢; rw [ht2]; exact hin
  obtain ⟨rest, hdp⟩ := defaultPath_creates a w0 hout0 hin0
  simp only [runEnable, htt, effectivePolicies, processPolicies, List.length_nil,
    gt_iff_lt, lt_self_iff_false, if_false, hdp]
  rcases hdpp : defaultPath a noFaults w0 with ⟨od, cd, wd⟩
  rw [hdpp] at hdp
  simp only at hdp
  subst hdp
  constructor <;> simp

/-- Witness for C4, one instance per part. -/
theorem policy_source_precedence_witness :
    runMain rawStd (.parsed [pStepIn]) (.parsed [pUnknown]) noFaults emptyWorld =
      runMain rawStd (.parsed [pStepIn]) .malformed noFaults emptyWorld ∧
    effectivePolicies .empty (.parsed [pStepIn]) = some [pStepIn] ∧
    Call.putPolicy (defaultPolicyInput argsStd (defaultOutName argsStd) 1 argsStd.outCd) ∈
      (runEnable argsStd .empty .empty noFaults emptyWorld).2.1 :=
  ⟨policy_source_precedence.1 rawStd [pStepIn] (.parsed [pUnknown]) .malformed noFaults emptyWorld,
   policy_source_precedence.2.1 [pStepIn],
   (policy_source_precedence.2.2 argsStd emptyWorld rfl rfl).1⟩

theorem noFaults_describeAlarm (n : String) : noFaults.describeAlarm n = false := rfl

theorem compare_true_lookup (resp : Option LivePolicy) (inp : PutScalingPolicyInput)
    (h : compareScalingPolicy resp inp = some true) : ∃ lp, resp = some lp := by
  cases resp with
  | none => simp [compareScalingPolicy] at h
  | some lp => exact ⟨lp, rfl⟩

theorem processPolicy_matching (a : Args) (f : Faults) (p : PolicyDef) (w : World)
    (inp : PutScalingPolicyInput) (hf : f.describePolicies p.PolicyName = false)
    (hb : buildPolicyInput a.resourceID p = .ok inp)
    (hcmp : compareScalingPolicy (lookupPolicy w p.PolicyName) inp = some true) :
    processPolicy a f p w = (none, [], w) := by
  simp [processPolicy, hb, hf, hcmp]

theorem processPolicies_matching (a : Args) (ps : List PolicyDef) (w : World)
    (h : ∀ p ∈ ps, ∃ inp, buildPolicyInput a.resourceID p = .ok inp ∧
       compareScalingPolicy (lookupPolicy w p.PolicyName) inp = some true) :
    processPolicies a noFaults ps w = (none, [], w) := by
  induction ps with
  | nil => rfl
  | cons p rest ih =>
    obtain ⟨inp, hb, hcmp⟩ := h p (List.mem_cons_self p rest)
    have hp := processPolicy_matching a noFaults p w inp rfl hb hcmp
    simp only [processPolicies, hp]
    rw [ih (fun q hq => h q (List.mem_cons_of_mem p hq))]
    simp

theorem reconcileDefaultPolicy_matching (a : Args) (name : String) (adjust cd : Int)
    (w : World)
    (h : compareScalingPolicy (lookupPolicy w name)
      (defaultPolicyInput a name adjust cd) = some true) :
    reconcileDefaultPolicy a noFaults name adjust cd w = (none, [], w) := by
  unfold reconcileDefaultPolicy
  simp [noFaults_describePolicies, h]

theorem alarmsLoop_existing (inps : List PutMetricAlarmInput) (w : World)
    (h : ∀ inp ∈ inps, w.alarms.contains inp.AlarmName = true) :
    alarmsLoop noFaults inps w = (none, [], w) := by
  induction inps with
  | nil => rfl
  | cons inp rest ih =>
    have hstep : alarmStep noFaults inp w = (none, [], w) := by
      have hmem := h inp (List.mem_cons_self inp rest)
      unfold alarmStep checkCloudWatchAlarm
      simp only [noFaults_describeAlarm, Bool.false_eq_true, if_false, hmem,
        eq_self_iff_true, if_true]
    simp only [alarmsLoop, hstep]
    rw [ih (fun q hq => h q (List.mem_cons_of_mem inp hq))]
    simp

theorem processPolicy_calls_shape (a : Args) (f : Faults) (p : PolicyDef) (w : World) :
    ∀ c ∈ (processPolicy a f p w).2.1,
      (∃ i, c = Call.putPolicy i) ∨ (∃ i, c = Call.putAlarm i) := by
  intro c hc
  simp only [processPolicy] at hc
  split at hc
  · simp at hc
  · simp at hc
  · split at hc
    · simp at hc
    · split at hc
      · simp at hc
      · split at hc
        · -- afterPut aborted: the trace is empty or one putPolicy call
          rename_i heq
          split at heq
          · simp at heq
          · split at heq
            · simp only [Prod.mk.injEq] at heq
              obtain ⟨-, -, hcl, -⟩ := heq
              subst hcl
              simp only [List.mem_singleton] at hc
              exact .inl ⟨_, hc⟩
            · simp at heq
        · -- afterPut continued
          rename_i policyExists calls w' heq
          have hcalls : calls = [] ∨ ∃ i, calls = [Call.putPolicy i] := by
            split at heq
            · simp only [Prod.mk.injEq] at heq
              exact .inl heq.2.2.1.symm
            · split at heq
              · simp at heq
              · simp only [Prod.mk.injEq] at heq
                exact .inr ⟨_, heq.2.2.1.symm⟩
          have hfromcalls : ∀ x ∈ calls,
              (∃ i, x = Call.putPolicy i) ∨ (∃ i, x = Call.putAlarm i) := by
            intro x hx
            rcases hcalls with h | ⟨i, h⟩ <;> subst h
            · simp at hx
            · simp only [List.mem_singleton] at hx
              exact .inl ⟨_, hx⟩
          split at hc <;> (try split at hc) <;> (try split at hc) <;>
            (try split at hc) <;> (try split at hc) <;> (try split at hc) <;>
            (try split at hc) <;>
            (first
              | exact hfromcalls c hc
              | (rcases List.mem_append.mp hc with h1 | h2
                 exacts [hfromcalls c h1, .inr ⟨_, by simpa using h2⟩]))

theorem processPolicies_calls_shape (a : Args) (f : Faults) (ps : List PolicyDef) (w : World) :
    ∀ c ∈ (processPolicies a f ps w).2.1,
      (∃ i, c = Call.putPolicy i) ∨ (∃ i, c = Call.putAlarm i) := by
  induction ps generalizing w with
  | nil => simp [processPolicies]
  | cons p rest ih =>
    intro c hc
    unfold processPolicies at hc
    rcases hp : processPolicy a f p w with ⟨op, cp, wp⟩
    rw [hp] at hc
    have sp := processPolicy_calls_shape a f p w
    rw [hp] at sp
    cases op with
    | some o =>
      simp only at hc
      exact sp c hc
    | none =>
      simp only at hc
      rcases List.mem_append.mp hc with h | h
      · exact sp c h
      · exact ih _ c h

theorem reconcileDefaultPolicy_calls_shape (a : Args) (f : Faults) (name : String)
    (adjust cd : Int) (w : World) :
    ∀ c ∈ (reconcileDefaultPolicy a f name adjust cd w).2.1, ∃ i, c = Call.putPolicy i := by
  intro c hc
  unfold reconcileDefaultPolicy at hc
  by_cases hd : f.describePolicies name
  · simp [hd] at hc
  · simp only [hd, Bool.false_eq_true, if_false] at hc
    cases hcmp : compareScalingPolicy (lookupPolicy w name)
        (defaultPolicyInput a name adjust cd) with
    | none =>
      rw [hcmp] at hc
      simp at hc
    | some pm =>
      rw [hcmp] at hc
      by_cases hpm : pm
      · simp [hpm] at hc
      · by_cases hput : f.putPolicy name
        · simp [hpm, hput] at hc
          exact ⟨_, hc⟩
        · simp [hpm, hput] at hc
          exact ⟨_, hc⟩

theorem alarmStep_calls_shape (f : Faults) (inp : PutMetricAlarmInput) (w : World) :
    ∀ c ∈ (alarmStep f inp w).2.1, ∃ i, c = Call.putAlarm i := by
  intro c hc
  unfold alarmStep at hc
  split at hc
  · simp at hc
  · split at hc
    · simp at hc
    · split at hc <;>
      · simp at hc
        exact ⟨_, hc⟩

theorem alarmsLoop_calls_shape (f : Faults) (inps : List PutMetricAlarmInput) (w : World) :
    ∀ c ∈ (alarmsLoop f inps w).2.1, ∃ i, c = Call.putAlarm i := by
  induction inps generalizing w with
  | nil => simp [alarmsLoop]
  | cons inp rest ih =>
    intro c hc
    unfold alarmsLoop at hc
    rcases hs : alarmStep f inp w with ⟨os, cs, ws⟩
    rw [hs] at hc
    have ss := alarmStep_calls_shape f inp w
    rw [hs] at ss
    cases os with
    | some o =>
      simp only at hc
      exact ss c hc
    | none =>
      simp only at hc
      rcases List.mem_append.mp hc with h | h
      · exact ss c h
      · exact ih _ c h

theorem defaultPath_calls_shape (a : Args) (f : Faults) (w : World) :
    ∀ c ∈ (defaultPath a f w).2.1,
      (∃ i, c = Call.putPolicy i) ∨ (∃ i, c = Call.putAlarm i) := by
  intro c hc
  unfold defaultPath at hc
  rcases h1 : reconcileDefaultPolicy a f (defaultOutName a) 1 a.outCd w with ⟨o1, c1, w1⟩
  rw [h1] at hc
  have s1 := reconcileDefaultPolicy_calls_shape a f (defaultOutName a) 1 a.outCd w
  rw [h1] at s1
  cases o1 with
  | some o =>
    simp only at hc
    exact .inl (s1 c hc)
  | none =>
    simp only at hc
    rcases h2 : reconcileDefaultPolicy a f (defaultInName a) (-1) a.inCd w1 with ⟨o2, c2, w2⟩
    rw [h2] at hc
    have s2 := reconcileDefaultPolicy_calls_shape a f (defaultInName a) (-1) a.inCd w1
    rw [h2] at s2
    have h12 : ∀ x ∈ c1 ++ c2, (∃ i, x = Call.putPolicy i) ∨ (∃ i, x = Call.putAlarm i) := by
      intro x hx
      rcases List.mem_append.mp hx with h | h
      · exact .inl (s1 x h)
      · exact .inl (s2 x h)
    cases o2 with
    | some o =>
      simp only at hc
      exact h12 c hc
    | none =>
      simp only at hc
      split at hc
      · exact h12 c hc
      · split at hc
        · exact h12 c hc
        · rename_i up hup
          split at hc
          · exact h12 c hc
          · split at hc
            · exact h12 c hc
            · rename_i dn hdn
              rcases h3 : alarmsLoop f (defaultAlarmInputs a up.PolicyARN dn.PolicyARN) w2
                with ⟨o3, c3, w3⟩
              rw [h3] at hc
              have s3 := alarmsLoop_calls_shape f (defaultAlarmInputs a up.PolicyARN dn.PolicyARN) w2
              rw [h3] at s3
              cases o3 <;>
              · simp only at hc
                rcases List.mem_append.mp hc with h | h
                · exact h12 c h
                · exact .inr (s3 c h)

theorem targetStep_matching_trace (a : Args) (f : Faults) (w : World)
    (htarget : w.target = some (a.minCap, a.maxCap)) :
    (targetStep a f w).2.1 = [] := by
  unfold targetStep checkScalableTarget
  by_cases hf : f.describeTarget
  · simp [hf]
  · simp [hf, htarget]

/-- **C1.** No-op minimality / idempotence, per resource and in aggregate:
(i) when the live scalable target already equals the desired min/max, no
`registerTarget` write appears anywhere in the enable run — even when
policies or alarms still need writes; (ii) when a policy's live
configuration is structurally equal to the desired one, the driver's
reconciliation step for that policy issues no write at all and leaves the
live state untouched; (iii) when an alarm of the given name already exists,
the create-once alarm step issues no write; (iv) when an alarm of the
derived name already exists, no `putAlarm` for it is issued while processing
a custom policy, even if that policy itself was just written; (v) hence,
when every resource matches — the spec's "every comparator returns matches"
situation of a second run with identical desired state and unchanged live
state — a fault-free enable run issues zero write calls and leaves the live
state unchanged. -/
theorem noop_minimality :
    (∀ (a : Args) (custom dflt : PolicyBlob) (f : Faults) (w : World),
       w.target = some (a.minCap, a.maxCap) →
       ∀ rid mn mx, Call.registerTarget rid mn mx ∉ (runEnable a custom dflt f w).2.1) ∧
    (∀ (a : Args) (f : Faults) (p : PolicyDef) (w : World) (inp : PutScalingPolicyInput),
       f.describePolicies p.PolicyName = false →
       buildPolicyInput a.resourceID p = .ok inp →
       compareScalingPolicy (lookupPolicy w p.PolicyName) inp = some true →
       processPolicy a f p w = (none, [], w)) ∧
    (∀ (f : Faults) (inp : PutMetricAlarmInput) (w : World),
       f.describeAlarm inp.AlarmName = false →
       w.alarms.contains inp.AlarmName = true →
       alarmStep f inp w = (none, [], w)) ∧
    (∀ (a : Args) (f : Faults) (p : PolicyDef) (w : World) (inp : PutMetricAlarmInput),
       w.alarms.contains inp.AlarmName = true →
       Call.putAlarm inp ∉ (processPolicy a f p w).2.1) ∧
    (∀ (a : Args) (custom dflt : PolicyBlob) (w : World) (ps : List PolicyDef),
       effectivePolicies custom dflt = some ps →
       w.target = some (a.minCap, a.maxCap) →
       (∀ p ∈ ps, ∃ inp, buildPolicyInput a.resourceID p = .ok inp ∧
          compareScalingPolicy (lookupPolicy w p.PolicyName) inp = some true) →
       (ps = [] →
          compareScalingPolicy (lookupPolicy w (defaultOutName a))
            (defaultPolicyInput a (defaultOutName a) 1 a.outCd) = some true ∧
          compareScalingPolicy (lookupPolicy w (defaultInName a))
            (defaultPolicyInput a (defaultInName a) (-1) a.inCd) = some true ∧
          ∀ n ∈ defaultAlarmNames a, w.alarms.contains n = true) →
       runEnable a custom dflt noFaults w = (.success, [], w)) := by
  refine ⟨?_, ?_, ?_, ?_, ?_⟩
  · -- (i) a matching target is never re-registered, whatever the rest needs
    intro a custom dflt f w htarget rid mn mx hmem
    have httrace := targetStep_matching_trace a f w htarget
    rcases htt : targetStep a f w with ⟨ot, ct, wt⟩
    rw [htt] at httrace
    simp only at httrace
    subst httrace
    unfold runEnable at hmem
    rw [htt] at hmem
    cases ot with
    | some o => simp at hmem
    | none =>
      simp only at hmem
      cases hps : effectivePolicies custom dflt with
      | none =>
        rw [hps] at hmem
        simp at hmem
      | some ps =>
        rw [hps] at hmem
        simp only at hmem
        rcases hpp : processPolicies a f ps wt with ⟨op, cp, wp⟩
        rw [hpp] at hmem
        have sp := processPolicies_calls_shape a f ps wt
        rw [hpp] at sp
        cases op with
        | some o =>
          simp only [List.nil_append] at hmem
          rcases sp _ hmem with ⟨i, hi⟩ | ⟨i, hi⟩ <;> simp at hi
        | none =>
          by_cases hlen : ps.length > 0
          · simp only [hlen, if_true, List.nil_append] at hmem
            rcases sp _ hmem with ⟨i, hi⟩ | ⟨i, hi⟩ <;> simp at hi
          · simp only [hlen, if_false, List.nil_append, List.mem_append] at hmem
            rcases hmem with h | h
            · rcases sp _ h with ⟨i, hi⟩ | ⟨i, hi⟩ <;> simp at hi
            · rcases defaultPath_calls_shape a f wp _ h with ⟨i, hi⟩ | ⟨i, hi⟩ <;> simp at hi
  · -- (ii) a matching policy gets no write and the state is untouched
    intro a f p w inp hf hb hcmp
    exact processPolicy_matching a f p w inp hf hb hcmp
  · -- (iii) an existing alarm is never rewritten by the create-once step
    intro f inp w hf hmem
    unfold alarmStep checkCloudWatchAlarm
    simp only [hf, Bool.false_eq_true, if_false, hmem, eq_self_iff_true, if_true]
  · -- (iv) an existing derived alarm gets no putAlarm on the custom path
    intro a f p w inp hex hmem
    have h := processPolicy_putAlarm_inv a f p w inp hmem
    rw [h.2.2.2.2.2.1] at hex
    simp at hex
  · -- (v) everything matches: the whole run writes nothing
    intro a custom dflt w ps hps htarget hpol hdef
    have htt : targetStep a noFaults w = (none, [], w) := by
      unfold targetStep checkScalableTarget
      simp [noFaults, htarget]
    simp only [runEnable, htt, hps, processPolicies_matching a ps w hpol]
    rcases ps with _ | ⟨p, rest⟩
    · obtain ⟨hdo, hdi, hal⟩ := hdef rfl
      obtain ⟨up, hup⟩ := compare_true_lookup _ _ hdo
      obtain ⟨dn, hdn⟩ := compare_true_lookup _ _ hdi
      have hdp : defaultPath a noFaults w = (.success, [], w) := by
        unfold defaultPath
        simp only [reconcileDefaultPolicy_matching a (defaultOutName a) 1 a.outCd w hdo,
          reconcileDefaultPolicy_matching a (defaultInName a) (-1) a.inCd w hdi,
          noFaults_describePolicies, Bool.false_eq_true, if_false, hup, hdn]
        rw [alarmsLoop_existing (defaultAlarmInputs a up.PolicyARN dn.PolicyARN) w ?_]
        · simp
        · intro inp hinp
          simp only [defaultAlarmInputs, List.mem_cons, List.not_mem_nil, or_false] at hinp
          rcases hinp with h1 | h1 | h1 | h1 <;> subst h1 <;>
            exact hal _ (by simp [defaultAlarmNames])
      simp [hdp]
    · simp

/-- Witness for C1, one concrete instance per part: on `targetWorld` the
target matches while the built-in policies still need writes, yet no
`registerTarget` is issued; a policy already stored as written is a no-op
step; an existing alarm is a no-op step; a freshly created policy whose
derived alarm already exists gets no `putAlarm`; and a fully-matching state
makes the whole run a no-op. -/
theorem noop_minimality_witness :
    Call.registerTarget "service/c/s" 1 10 ∉
      (runEnable argsStd .empty .empty noFaults targetWorld).2.1 ∧
    processPolicy argsStd noFaults pStepIn (putPolicyWorld targetWorld putStepInInput) =
      (none, [], putPolicyWorld targetWorld putStepInInput) ∧
    alarmStep noFaults alarmStepIn ⟨some (1, 10), [], ["c-s-svc-scale-in"]⟩ =
      (none, [], ⟨some (1, 10), [], ["c-s-svc-scale-in"]⟩) ∧
    Call.putAlarm alarmStepIn ∉
      (processPolicy argsStd noFaults pStepIn ⟨some (1, 10), [], ["c-s-svc-scale-in"]⟩).2.1 ∧
    runEnable argsStd .empty .empty noFaults wMatchW1 = (.success, [], wMatchW1) :=
  ⟨noop_minimality.1 argsStd .empty .empty noFaults targetWorld rfl "service/c/s" 1 10,
   noop_minimality.2.1 argsStd noFaults pStepIn (putPolicyWorld targetWorld putStepInInput)
     putStepInInput rfl rfl (by decide),
   noop_minimality.2.2.1 noFaults alarmStepIn ⟨some (1, 10), [], ["c-s-svc-scale-in"]⟩ rfl rfl,
   noop_minimality.2.2.2.1 argsStd noFaults pStepIn ⟨some (1, 10), [], ["c-s-svc-scale-in"]⟩
     alarmStepIn rfl,
   noop_minimality.2.2.2.2 argsStd .empty .empty wMatchW1 [] rfl rfl (by simp)
     (fun _ => ⟨rfl, rfl, by decide⟩)⟩

theorem probeAlarms_mem (f : Faults) (w : World) (ns : List String) (n : String)
    (h : n ∈ probeAlarms f w ns) :
    f.describeAlarm n = false ∧ w.alarms.contains n = true := by
  induction ns with
  | nil => simp [probeAlarms] at h
  | cons m rest ih =>
    unfold probeAlarms checkCloudWatchAlarm at h
    by_cases hf : f.describeAlarm m
    · simp only [hf, if_true] at h
      exact ih h
    · simp only [hf, Bool.false_eq_true, if_false] at h
      by_cases hex : w.alarms.contains m
      · simp only [hex, if_true] at h
        rcases List.mem_cons.mp h with he | hrest
        · subst he
          exact ⟨by simp [hf], hex⟩
        · exact ih hrest
      · simp only [hex, Bool.false_eq_true, if_false] at h
        exact ih h

theorem deletePoliciesLoop_ok (a : Args) (f : Faults) (names : List String) (w : World)
    (h : ∀ n ∈ names, f.deletePolicy n = false) :
    (deletePoliciesLoop a f names w).1 = none ∧
    (deletePoliciesLoop a f names w).2.1 = names.map (Call.deletePolicy a.resourceID) := by
  induction names generalizing w with
  | nil => simp [deletePoliciesLoop]
  | cons n rest ih =>
    have hn := h n (List.mem_cons_self n rest)
    unfold deletePoliciesLoop
    simp only [hn, Bool.false_eq_true, if_false]
    obtain ⟨i1, i2⟩ := ih _ (fun q hq => h q (List.mem_cons_of_mem n hq))
    exact ⟨i1, by rw [i2]; rfl⟩

theorem deletePoliciesLoop_target (a : Args) (f : Faults) (names : List String) (w : World) :
    (deletePoliciesLoop a f names w).2.2.target = w.target := by
  induction names generalizing w with
  | nil => rfl
  | cons n rest ih =>
    unfold deletePoliciesLoop
    by_cases hn : f.deletePolicy n
    · simp [hn]
    · simp only [hn, Bool.false_eq_true, if_false]
      exact ih _

theorem deletePoliciesLoop_calls (a : Args) (f : Faults) (names : List String) (w : World) :
    ∀ c ∈ (deletePoliciesLoop a f names w).2.1, ∃ m, c = Call.deletePolicy a.resourceID m := by
  induction names generalizing w with
  | nil => simp [deletePoliciesLoop]
  | cons n rest ih =>
    intro c hc
    unfold deletePoliciesLoop at hc
    by_cases hn : f.deletePolicy n
    · simp only [hn, if_true] at hc
      simp only [List.mem_singleton] at hc
      exact ⟨n, hc⟩
    · simp only [hn, Bool.false_eq_true, if_false] at hc
      rcases List.mem_cons.mp hc with he | hrest
      · exact ⟨n, he⟩
      · exact ih _ c hrest

theorem deletePoliciesLoop_fail (a : Args) (f : Faults) (names : List String) (w : World)
    (rid n : String)
    (hmem : Call.deletePolicy rid n ∈ (deletePoliciesLoop a f names w).2.1)
    (hf : f.deletePolicy n = true) :
    (deletePoliciesLoop a f names w).1 = some .fatal := by
  induction names generalizing w with
  | nil => simp [deletePoliciesLoop] at hmem
  | cons m rest ih =>
    unfold deletePoliciesLoop at hmem ⊢
    by_cases hm : f.deletePolicy m
    · simp [hm]
    · simp only [hm, Bool.false_eq_true, if_false] at hmem ⊢
      rcases List.mem_cons.mp hmem with he | hrest
      · obtain ⟨-, hn⟩ := Call.deletePolicy.inj he
        rw [hn] at hf
        exact absurd hf hm
      · exact ih _ hrest

theorem deletePoliciesLoop_abort (a : Args) (f : Faults) (names : List String) (w : World)
    (o : Outcome) (h : (deletePoliciesLoop a f names w).1 = some o) : o = .fatal := by
  induction names generalizing w with
  | nil => simp [deletePoliciesLoop] at h
  | cons m rest ih =>
    unfold deletePoliciesLoop at h
    by_cases hm : f.deletePolicy m
    · simp only [hm, if_true] at h
      simp only [Option.some.injEq] at h
      exact h.symm
    · simp only [hm, Bool.false_eq_true, if_false] at h
      exact ih _ h

theorem deletePoliciesLoop_none_calls (a : Args) (f : Faults) (names : List String) (w : World)
    (h : (deletePoliciesLoop a f names w).1 = none) :
    ∀ rid m, Call.deletePolicy rid m ∈ (deletePoliciesLoop a f names w).2.1 →
      f.deletePolicy m = false := by
  induction names generalizing w with
  | nil => simp [deletePoliciesLoop]
  | cons q rest ih =>
    intro rid m hmem
    unfold deletePoliciesLoop at h hmem
    by_cases hq : f.deletePolicy q
    · simp [hq] at h
    · simp only [hq, Bool.false_eq_true, if_false] at h hmem
      rcases List.mem_cons.mp hmem with he | hrest
      · obtain ⟨-, hqm⟩ := Call.deletePolicy.inj he
        rw [hqm]
        simp only [Bool.not_eq_true] at hq
        exact hq
      · exact ih _ h rid m hrest

theorem alarmBatch_cont (f : Faults) (w : World) (ea : List String)
    (hda : f.deleteAlarms = false) : (alarmBatch f w ea).1 = none := by
  unfold alarmBatch
  split_ifs <;> simp_all

theorem alarmBatch_target (f : Faults) (w : World) (ea : List String) :
    (alarmBatch f w ea).2.2.target = w.target := by
  unfold alarmBatch
  split_ifs <;> rfl

theorem alarmBatch_calls (f : Faults) (w : World) (ea : List String) :
    ∀ c ∈ (alarmBatch f w ea).2.1, c = Call.deleteAlarms ea := by
  unfold alarmBatch
  split_ifs <;> simp

theorem disableTail_ok (a : Args) (f : Faults) (c1 : List Call) (w1 : World)
    (names : List String) (hdr : f.deregisterTarget = false)
    (hdel : ∀ n, f.deletePolicy n = false) :
    (disableTail a f c1 w1 names).1 = .success ∧
    (disableTail a f c1 w1 names).2.1 =
      c1 ++ names.map (Call.deletePolicy a.resourceID) ++
        [Call.deregisterTarget a.resourceID] := by
  obtain ⟨l1, l2⟩ := deletePoliciesLoop_ok a f names w1 (fun n _ => hdel n)
  unfold disableTail
  rcases hloop : deletePoliciesLoop a f names w1 with ⟨ol, cl, wl⟩
  rw [hloop] at l1 l2
  simp only at l1 l2
  subst l1
  subst l2
  simp [hdr]

theorem disableTail_fail (a : Args) (f : Faults) (c1 : List Call) (w1 : World)
    (names : List String) (rid n : String)
    (hc1 : ∀ c ∈ c1, ∃ ns, c = Call.deleteAlarms ns)
    (hmem : Call.deletePolicy rid n ∈ (disableTail a f c1 w1 names).2.1)
    (hf : f.deletePolicy n = true) :
    (disableTail a f c1 w1 names).1 = .fatal ∧
    (∀ rid2, Call.deregisterTarget rid2 ∉ (disableTail a f c1 w1 names).2.1) ∧
    (disableTail a f c1 w1 names).2.2.target = w1.target := by
  have hcl := deletePoliciesLoop_calls a f names w1
  have htgt := deletePoliciesLoop_target a f names w1
  unfold disableTail at hmem ⊢
  rcases hloop : deletePoliciesLoop a f names w1 with ⟨ol, cl, wl⟩
  rw [hloop] at hmem hcl htgt
  simp only at hcl htgt
  cases ol with
  | some o =>
    have ho : o = .fatal := deletePoliciesLoop_abort a f names w1 o (by rw [hloop])
    subst ho
    refine ⟨rfl, ?_, htgt⟩
    intro rid2 hder
    simp only at hder
    rcases List.mem_append.mp hder with h1 | h2
    · obtain ⟨ns, hns⟩ := hc1 _ h1
      simp at hns
    · obtain ⟨m, hm⟩ := hcl _ h2
      simp at hm
  | none =>
    exfalso
    have hnone := deletePoliciesLoop_none_calls a f names w1 (by rw [hloop])
    rw [hloop] at hnone
    simp only at hnone hmem
    have : Call.deletePolicy rid n ∈ c1 ++ cl ++ [Call.deregisterTarget a.resourceID] := by
      split_ifs at hmem <;> exact hmem
    rcases List.mem_append.mp this with h12 | h3
    · rcases List.mem_append.mp h12 with h1 | h2
      · obtain ⟨ns, hns⟩ := hc1 _ h1
        simp at hns
      · have := hnone rid n h2
        rw [hf] at this
        simp at this
    · simp at h3

/-- **C8.** Teardown partial-failure asymmetry.  (a) When deletes,
deregister and all read probes except alarm probes succeed, a failed alarm
existence check is non-fatal: the run still succeeds, and every name in the
batched alarm delete was probed successfully and confirmed to exist (faulted
names are skipped).  (b) A failed individual policy deletion is fatal: the
run ends fatal at that call, no deregister call is ever issued, and the
scalable target is left registered. -/
theorem teardown_partial_failure_asymmetry :
    (∀ (a : Args) (custom dflt : PolicyBlob) (f : Faults) (w : World) (ps : List PolicyDef),
       effectivePolicies custom dflt = some ps →
       f.describeTarget = false → f.deleteAlarms = false → f.deregisterTarget = false →
       (∀ n, f.describePolicies n = false) → (∀ n, f.deletePolicy n = false) →
       (runDisable a custom dflt f w).1 = .success ∧
       (∀ names, Call.deleteAlarms names ∈ (runDisable a custom dflt f w).2.1 →
          ∀ n ∈ names, f.describeAlarm n = false ∧ w.alarms.contains n = true)) ∧
    (∀ (a : Args) (custom dflt : PolicyBlob) (f : Faults) (w : World) (rid n : String),
       Call.deletePolicy rid n ∈ (runDisable a custom dflt f w).2.1 →
       f.deletePolicy n = true →
       (runDisable a custom dflt f w).1 = .fatal ∧
       (∀ rid2, Call.deregisterTarget rid2 ∉ (runDisable a custom dflt f w).2.1) ∧
       (runDisable a custom dflt f w).2.2.target = w.target ∧
       w.target.isSome = true) := by
  constructor
  · intro a custom dflt f w ps hps hdt hda hdr hdpol hdel
    unfold runDisable scalableTargetExists
    simp only [hdt, Bool.false_eq_true, if_false, hps]
    by_cases htar : w.target.isSome
    · simp only [htar, Bool.not_true, Bool.false_eq_true, if_false]
      rcases hb : alarmBatch f w (probeAlarms f w (disableAlarmNames a ps)) with ⟨ob, cb, wb⟩
      have hb1 : ob = none := by
        have hc := alarmBatch_cont f w (probeAlarms f w (disableAlarmNames a ps)) hda
        rw [hb] at hc
        exact hc
      subst hb1
      simp only [hb]
      obtain ⟨t1, t2⟩ := disableTail_ok a f cb wb
        (probePolicies f wb (deduplicate
          ([defaultOutName a, defaultInName a] ++ ps.map (·.PolicyName)))) hdr hdel
      refine ⟨t1, ?_⟩
      intro names hnm n hn
      rw [t2] at hnm
      rcases List.mem_append.mp hnm with h12 | h3
      · rcases List.mem_append.mp h12 with h1 | h2
        · have hcalls := alarmBatch_calls f w (probeAlarms f w (disableAlarmNames a ps))
          rw [hb] at hcalls
          have he := hcalls _ h1
          have hnames := Call.deleteAlarms.inj he
          subst hnames
          exact probeAlarms_mem f w _ n hn
        · simp only [List.mem_map] at h2
          obtain ⟨m, -, hmeq⟩ := h2
          simp at hmeq
      · simp at h3
    · simp only [Bool.not_eq_true] at htar
      simp [htar]
  · intro a custom dflt f w rid n hmem hf
    by_cases hdt : f.describeTarget
    · exact absurd hmem (by simp [runDisable, scalableTargetExists, hdt])
    · simp only [Bool.not_eq_true] at hdt
      by_cases htar : w.target.isSome
      · cases hps : effectivePolicies custom dflt with
        | none =>
          exact absurd hmem
            (by simp [runDisable, scalableTargetExists, hdt, htar, hps])
        | some ps =>
          rcases hb : alarmBatch f w (probeAlarms f w (disableAlarmNames a ps)) with ⟨ob, cb, wb⟩
          cases ob with
          | some o =>
            have hrw : runDisable a custom dflt f w = (o, cb, wb) := by
              simp only [runDisable, scalableTargetExists, hdt, Bool.false_eq_true, if_false,
                htar, Bool.not_true, hps, hb]
            rw [hrw] at hmem
            have hcalls := alarmBatch_calls f w (probeAlarms f w (disableAlarmNames a ps))
            rw [hb] at hcalls
            have he := hcalls _ hmem
            simp at he
          | none =>
            have hrw : runDisable a custom dflt f w =
                disableTail a f cb wb (probePolicies f wb (deduplicate
                  ([defaultOutName a, defaultInName a] ++ ps.map (·.PolicyName)))) := by
              simp only [runDisable, scalableTargetExists, hdt, Bool.false_eq_true, if_false,
                htar, Bool.not_true, hps, hb]
            rw [hrw] at hmem ⊢
            have hc1 : ∀ c ∈ cb, ∃ ns, c = Call.deleteAlarms ns := by
              have hcalls := alarmBatch_calls f w (probeAlarms f w (disableAlarmNames a ps))
              rw [hb] at hcalls
              exact fun c hc => ⟨_, hcalls c hc⟩
            obtain ⟨b1, b2, b3⟩ := disableTail_fail a f cb wb _ rid n hc1 hmem hf
            have hwt : wb.target = w.target := by
              have ht := alarmBatch_target f w (probeAlarms f w (disableAlarmNames a ps))
              rw [hb] at ht
              exact ht
            exact ⟨b1, b2, by rw [b3, hwt], htar⟩
      · simp only [Bool.not_eq_true] at htar
        exact absurd hmem (by simp [runDisable, scalableTargetExists, hdt, htar])

/-- Witness for C8: with only the `c-s-cpu-high` alarm probe failing the
teardown still succeeds; with only the built-in scale-out policy deletion
failing it is fatal. -/
theorem teardown_partial_failure_asymmetry_witness :
    (runDisable argsStd .empty .empty fAlarmFault wTear).1 = .success ∧
    (runDisable argsStd .empty .empty fDelFault wTear).1 = .fatal :=
  ⟨(teardown_partial_failure_asymmetry.1 argsStd .empty .empty fAlarmFault wTear [] rfl rfl rfl
      rfl (fun _ => rfl) (fun _ => rfl)).1,
   (teardown_partial_failure_asymmetry.2 argsStd .empty .empty fDelFault wTear
      "service/c/s" (defaultOutName argsStd) (by decide) (by decide)).1⟩
